import Mathlib

/-!
Shallow embedding of the exec-tracing eBPF core of tracexec
(src/src/bpf/tracexec_system.bpf.c together with the ABI constants of
src/src/bpf/interface.h and src/src/bpf/common.h), and proofs checking the
natural-language specification against it.

Kernel reads (`bpf_core_read`, `bpf_probe_read_user`, ...) are modelled by
oracle environments: each fallible read is an `Option`/`Bool` input of the
model, and the per-CPU staging cache and the ring buffer are modelled by
success oracles (`cache_ok`, `ring_ok`).  Machine integers are `Nat`/`Int`
with explicit wrapping where the source can overflow.
-/

namespace Tracexec

/-! ## ABI constants (interface.h, common.h) -/

/-- `ARGC_MAX` from interface.h: bound of the argv/envp read loop. -/
def ARGC_MAX : Nat := 233017

/-- `BITS_PER_LONG` from interface.h. -/
def BITS_PER_LONG : Nat := 64

/-- `PATH_DEPTH_MAX` from interface.h: bound of the dentry/mount walks. -/
def PATH_DEPTH_MAX : Nat := 65536

/-- `O_CLOEXEC = 02000000` (octal) from common.h; equals `2 ^ 19`. -/
def O_CLOEXEC : Nat := 524288

/-- `AT_FDCWD = -100` from common.h, used as the synthetic cwd path id. -/
def AT_FDCWD : Int := -100

/-! Flag bits of `enum exec_event_flags` (interface.h). -/

def TOO_MANY_ITEMS : Nat := 2
def COMM_READ_FAILURE : Nat := 4
def POSSIBLE_TRUNCATION : Nat := 8
def PTR_READ_FAILURE : Nat := 16
def STR_READ_FAILURE : Nat := 64
def FDS_PROBE_FAILURE : Nat := 128
def OUTPUT_FAILURE : Nat := 256
def FLAGS_READ_FAILURE : Nat := 512
def BAIL_OUT : Nat := 2048
def LOOP_FAIL : Nat := 4096
def PATH_READ_ERR : Nat := 8192
def INO_READ_ERR : Nat := 16384
def MNTID_READ_ERR : Nat := 32768
def FILENAME_READ_ERR : Nat := 65536
def POS_READ_ERR : Nat := 131072

/-! ## Wire records

`struct tracexec_event_header` and the per-type payloads of interface.h.
The `type` discriminant of the header is the payload constructor. -/

/-- The common header of every ring-buffer record (interface.h). -/
structure EventHeader where
  pid : Int
  flags : Nat
  eid : Nat
  id : Int
deriving DecidableEq, Repr

/-- The type-specific payload of a ring-buffer record (interface.h). -/
inductive Payload where
  /-- `struct exec_event` scalar part, emitted as the `SYSEXIT` record. -/
  | sysexit (count0 count1 fd_count path_count : Nat) (ret : Int)
  /-- `struct string_event`: one argv/envp entry. -/
  | string (data : String)
  /-- `struct fd_event`. -/
  | fd (fdnum : Nat) (oflags : Nat) (mnt_id : Int) (path_id : Int)
       (ino : Nat) (pos : Int) (fstype : String)
  /-- `struct path_segment_event`. -/
  | seg (index : Nat) (segment : String)
  /-- `struct path_event`. -/
  | path (segment_count : Nat)
  /-- `struct fork_event` (child tgid is in the header's `pid`). -/
  | fork (parent_tgid : Int)
  /-- `struct exit_event`. -/
  | exit (code : Int) (sig : Nat) (is_root_tracee : Bool)
deriving DecidableEq, Repr

/-- A record as submitted to the ring buffer. -/
structure Record where
  header : EventHeader
  payload : Payload
deriving DecidableEq, Repr

/-! ## C5: eid assignment (tracexec_system.bpf.c line 252)

`event->header.eid = __sync_fetch_and_add(&event_counter, 1);` -/

/-- Atomic `__sync_fetch_and_add(&event_counter, 1)`: returns the old counter
value and the incremented counter. -/
def fetch_and_add (counter : Nat) : Nat × Nat := (counter, counter + 1)

/-- The eids handed out to `n` consecutively processed traced execs of one
session, starting from counter value `c` (the counter starts at 0,
tracexec_system.bpf.c line 11). -/
def assign_eids : Nat → Nat → List Nat
  | _, 0 => []
  | c, n + 1 =>
    let (eid, c') := fetch_and_add c
    eid :: assign_eids c' n

theorem assign_eids_eq_range' (c n : Nat) : assign_eids c n = List.range' c n := by
  induction n generalizing c with
  | zero => rfl
  | succ n ih => simp [assign_eids, fetch_and_add, List.range'_succ, ih]

/-! ## C6: should_trace (tracexec_system.bpf.c lines 129-192) -/

/-- The load-time configuration consumed by `should_trace`
(`tracexec_config`, tracexec_system.bpf.c lines 19-32). -/
structure TracexecConfig where
  follow_fork : Bool
  tracee_pid : Int
  tracee_pidns_inum : Nat
deriving DecidableEq, Repr

/-- Oracle for the kernel reads done by the pid-namespace walk of
`should_trace`: each `*_ok` flag is the success of one `bpf_core_read`. -/
structure TaskPidNs where
  nsproxy_ok : Bool
  thread_pid_ok : Bool
  level_ok : Bool
  upid_ok : Bool
  /-- `upid.nr`: the task's pid in its deepest pid namespace. -/
  pid_in_ns : Int
  ns_inum_ok : Bool
  /-- `pid_ns->ns.inum`: inode number of the deepest pid namespace. -/
  ns_inum : Nat
deriving DecidableEq, Repr

/-- The probe-domain global state shared by the probes: the tgid closure
hash-set (`tgid_closure` map) and the captured root tracee tgid
(`tracee_tgid`, tracexec_system.bpf.c line 18). -/
structure TraceState where
  tgid_closure : List Int
  tracee_tgid : Int
deriving DecidableEq, Repr

/-- `add_tgid_to_closure` (tracexec_system.bpf.c lines 867-880); the insert
into the hash-set is modelled as always succeeding. -/
def add_tgid_to_closure (s : TraceState) (tgid : Int) : TraceState :=
  { s with tgid_closure := tgid :: s.tgid_closure }

/-- `should_trace` (tracexec_system.bpf.c lines 129-192), translated branch by
branch; returns the decision together with the updated global state. -/
def should_trace (cfg : TracexecConfig) (task : TaskPidNs) (s : TraceState)
    (old_tgid : Int) : Bool × TraceState :=
  if !cfg.follow_fork then (true, s)
  else if s.tgid_closure.contains old_tgid then (true, s)
  else if !task.nsproxy_ok then (false, s)
  else if !task.thread_pid_ok then (false, s)
  else if !task.level_ok then (false, s)
  else if !task.upid_ok then (false, s)
  else if !task.ns_inum_ok then (false, s)
  else if task.pid_in_ns == cfg.tracee_pid && task.ns_inum == cfg.tracee_pidns_inum then
    (true, { add_tgid_to_closure s old_tgid with tracee_tgid := old_tgid })
  else (false, s)

/-- The deepest-namespace identity `(pid_in_that_ns, pid_ns_inode)` of the
current task as the claim describes it: `none` when any kernel read of the
namespace walk failed. -/
def deepest_ns_pair (task : TaskPidNs) : Option (Int × Nat) :=
  if task.nsproxy_ok && task.thread_pid_ok && task.level_ok && task.upid_ok
      && task.ns_inum_ok then
    some (task.pid_in_ns, task.ns_inum)
  else none

/-- `should_trace` as claim C6 states it, written from the claim's words:
trace all when follow-fork is off; otherwise hit the closure, else compare the
deepest-namespace pair with the configured root tracee identity, adding the
tgid to the closure and recording it as `tracee_tgid` on a match; any failed
read during the walk yields false. -/
def should_trace_claim (cfg : TracexecConfig) (task : TaskPidNs) (s : TraceState)
    (old_tgid : Int) : Bool × TraceState :=
  if !cfg.follow_fork then (true, s)
  else if s.tgid_closure.contains old_tgid then (true, s)
  else
    match deepest_ns_pair task with
    | none => (false, s)
    | some p =>
      if p = (cfg.tracee_pid, cfg.tracee_pidns_inum) then
        (true, { tgid_closure := old_tgid :: s.tgid_closure, tracee_tgid := old_tgid })
      else (false, s)

/-! ## C9: handle_exit (tracexec_system.bpf.c lines 357-416) -/

/-- Oracle inputs of one `sched_process_exit` invocation. -/
structure ExitCtx where
  pid : Int
  tgid : Int
  /-- `bpf_get_smp_processor_id() <= tracexec_config.max_num_cpus`. -/
  cpu_ok : Bool
  /-- lookup in the per-CPU staging `cache` map succeeded. -/
  cache_ok : Bool
  /-- stale header fields left in the staging slot by its previous use
  (`handle_exit` sets only `type`, `pid` and `flags` of the header). -/
  stale_eid : Nat
  stale_id : Int
  /-- the read of `current->exit_code` succeeded. -/
  exit_code_ok : Bool
  /-- `current->exit_code` (a C `int`). -/
  exit_code : Int
  /-- `bpf_ringbuf_output` succeeded. -/
  ring_ok : Bool
deriving DecidableEq, Repr

/-- C's arithmetic right shift on `int` (`exit_code >> 8`): floor division by
`2 ^ n` on the mathematical integer. -/
def sar (x : Int) (n : Nat) : Int := Int.fdiv x (2 ^ n)

/-- C's `exit_code & 0xFF` on a two's-complement `int`: the low byte, always
in `[0, 256)`. -/
def low_byte (x : Int) : Nat := (Int.emod x 256).toNat

/-- `handle_exit` (tracexec_system.bpf.c lines 357-416): returns the updated
global state and the records that reached the ring buffer. -/
def handle_exit (cfg : TracexecConfig) (s : TraceState) (ctx : ExitCtx) :
    TraceState × List Record :=
  if ctx.pid ≠ ctx.tgid then (s, [])
  else if !s.tgid_closure.contains ctx.tgid && cfg.follow_fork then (s, [])
  else
    let s' : TraceState := { s with tgid_closure := s.tgid_closure.erase ctx.tgid }
    if !ctx.cpu_ok then (s', [])
    else if !ctx.cache_ok then (s', [])
    else
      let is_root := ctx.tgid == s.tracee_tgid
      if !ctx.exit_code_ok then (s', [])
      else
        let entry : Record :=
          { header := { pid := ctx.pid, flags := 0, eid := ctx.stale_eid, id := ctx.stale_id }
            payload := .exit (sar ctx.exit_code 8) (low_byte ctx.exit_code) is_root }
        (s', if ctx.ring_ok then [entry] else [])

/-! ## C7: trace_fork (tracexec_system.bpf.c lines 308-355) -/

/-- One observable action of a probe, in program order: a mutation of the
`tgid_closure` map or a write to the ring buffer. -/
inductive Op where
  | addClosure (tgid : Int)
  | ringWrite (r : Record)
deriving DecidableEq, Repr

/-- Oracle inputs of one `sched_process_fork` invocation. -/
structure ForkCtx where
  child_pid_ok : Bool
  child_pid : Int
  child_tgid_ok : Bool
  child_tgid : Int
  parent_tgid_ok : Bool
  parent_tgid : Int
  /-- namespace-walk reads used by the inner `should_trace`. -/
  task : TaskPidNs
  cpu_ok : Bool
  cache_ok : Bool
  /-- stale header fields left in the staging slot (`trace_fork` sets only
  `type`, `flags` and `pid` of the header). -/
  stale_eid : Nat
  stale_id : Int
  ring_ok : Bool
deriving DecidableEq, Repr

/-- `trace_fork` (tracexec_system.bpf.c lines 308-355): returns the updated
global state, the sequence of observable actions in program order, and the
probe's return value.  `-14` is `-EFAULT`. -/
def trace_fork (cfg : TracexecConfig) (fc : ForkCtx) (s : TraceState) :
    TraceState × List Op × Int :=
  if !fc.child_pid_ok then (s, [], -14)
  else if !fc.child_tgid_ok then (s, [], -14)
  else if fc.child_pid ≠ fc.child_tgid then (s, [], 0)
  else if !fc.parent_tgid_ok then (s, [], -14)
  else
    let (tr, s1) := should_trace cfg fc.task s fc.parent_tgid
    if tr then
      let s2 := add_tgid_to_closure s1 fc.child_pid
      let ops : List Op := [.addClosure fc.child_pid]
      if !fc.cpu_ok then (s2, ops, 1)
      else if !fc.cache_ok then (s2, ops, 1)
      else
        let entry : Record :=
          { header := { pid := fc.child_pid, flags := 0, eid := fc.stale_eid, id := fc.stale_id }
            payload := .fork fc.parent_tgid }
        if fc.ring_ok then (s2, ops ++ [.ringWrite entry], 0)
        else (s2, ops, 0)
    else (s1, [], 0)

/-! ## C8: per-pid exec slot lifecycle
(tracexec_system.bpf.c lines 233-241 and 462-496) -/

/-- The `execs` hash map keyed by pid together with the global
`drop_counter`. -/
structure ExecMapState where
  slots : List Int
  drops : Nat
deriving DecidableEq, Repr

/-- The `BPF_NOEXIST` insertion of the per-pid slot at exec entry
(`trace_exec_common`, lines 233-241): the insert fails when the key already
exists or the map is full (`full` oracle); on failure the drop counter is
bumped and the handler returns (the `Bool` is whether entry processing
continues). -/
def exec_entry_slot_insert (full : Bool) (st : ExecMapState) (pid : Int) :
    ExecMapState × Bool :=
  if st.slots.contains pid || full then
    ({ st with drops := st.drops + 1 }, false)
  else
    ({ st with slots := pid :: st.slots }, true)

/-- `tp_sys_exit_exec` (lines 462-496), slot lifecycle part: `traced` is the
result of the re-check `should_trace(event->tgid)` on the stored pre-exec
tgid, and `stored` is the per-pid `exec_event` stamped with the return value
(emitted as the `SYSEXIT` record when the ring accepts it). -/
def tp_sys_exit_exec (st : ExecMapState) (pid : Int) (traced ring_ok : Bool)
    (stored : Record) : ExecMapState × List Record :=
  if !st.slots.contains pid then ({ st with drops := st.drops + 1 }, [])
  else if !traced then ({ st with slots := st.slots.erase pid }, [])
  else ({ st with slots := st.slots.erase pid }, if ring_ok then [stored] else [])

/-! ## Theorems for C5, C6, C7, C8, C9 -/

/-- C5: within one session every traced exec draws its eid from an atomic
fetch-and-add of the global `event_counter`, so the eids handed out form a
strictly increasing sequence: any two distinct execs get distinct eids and a
later-processed exec gets a strictly larger eid. -/
theorem assign_eids_strict_mono (c n : Nat) :
    List.Pairwise (· < ·) (assign_eids c n) := by
  rw [assign_eids_eq_range']
  exact List.pairwise_lt_range' c n

/-- C6: `should_trace` returns true for every tgid when follow-fork is off;
with follow-fork on it returns true on a closure hit, otherwise it compares
the deepest-pid-namespace pair with the configured root tracee identity,
adding the tgid to the closure and recording it as `tracee_tgid` on a match,
and returns false in every other case, including any failed kernel read
during the namespace walk. -/
theorem should_trace_matches_claim (cfg : TracexecConfig) (task : TaskPidNs)
    (s : TraceState) (old_tgid : Int) :
    should_trace cfg task s old_tgid = should_trace_claim cfg task s old_tgid := by
  unfold should_trace should_trace_claim deepest_ns_pair add_tgid_to_closure
  cases hf : cfg.follow_fork <;>
    cases hc : s.tgid_closure.contains old_tgid <;>
      cases h1 : task.nsproxy_ok <;>
        cases h2 : task.thread_pid_ok <;>
          cases h3 : task.level_ok <;>
            cases h4 : task.upid_ok <;>
              cases h5 : task.ns_inum_ok <;>
                simp [Prod.ext_iff, beq_iff_eq, and_comm]

/-- C9: the process-exit handler emits a record only for a whole-process exit
(`pid == tgid`); whenever it emits, the tgid has been removed from the
closure, and the EXIT record carries `code = raw >> 8` and
`sig = raw & 0xFF` (so `raw = 256 * code + sig` with `sig < 256`) and
`is_root_tracee` exactly when the tgid equals the recorded `tracee_tgid`. -/
theorem sar_low_byte_recombine (x : Int) :
    x = 256 * sar x 8 + (low_byte x : Int) := by
  unfold sar low_byte
  have h2 : Int.fdiv x (2 ^ 8) = x / 256 := by
    norm_num
    rw [Int.fdiv_eq_ediv]
    norm_num
  have h3 : Int.emod x 256 = x % 256 := rfl
  rw [h2, h3]
  have h1 := Int.emod_nonneg x (show (256 : Int) ≠ 0 by norm_num)
  omega

theorem low_byte_lt (x : Int) : low_byte x < 256 := by
  unfold low_byte
  have h3 : Int.emod x 256 = x % 256 := rfl
  rw [h3]
  have h1 := Int.emod_nonneg x (show (256 : Int) ≠ 0 by norm_num)
  have h2 := Int.emod_lt_of_pos x (show (0 : Int) < 256 by norm_num)
  omega

theorem handle_exit_spec (cfg : TracexecConfig) (s : TraceState) (ctx : ExitCtx)
    (r : Record) (hr : r ∈ (handle_exit cfg s ctx).2) :
    ctx.pid = ctx.tgid ∧
    (handle_exit cfg s ctx).1.tgid_closure = s.tgid_closure.erase ctx.tgid ∧
    r.payload = .exit (sar ctx.exit_code 8) (low_byte ctx.exit_code)
      (ctx.tgid == s.tracee_tgid) ∧
    ctx.exit_code = 256 * sar ctx.exit_code 8 + (low_byte ctx.exit_code : Int) ∧
    low_byte ctx.exit_code < 256 := by
  have key : ctx.pid = ctx.tgid ∧
      (handle_exit cfg s ctx).1.tgid_closure = s.tgid_closure.erase ctx.tgid ∧
      r.payload = .exit (sar ctx.exit_code 8) (low_byte ctx.exit_code)
        (ctx.tgid == s.tracee_tgid) := by
    cases hcpu : ctx.cpu_ok <;> cases hcache : ctx.cache_ok <;>
      cases hec : ctx.exit_code_ok <;> cases hring : ctx.ring_ok <;>
        cases hff : cfg.follow_fork <;>
          cases hin : s.tgid_closure.contains ctx.tgid <;>
            by_cases hpid : ctx.pid = ctx.tgid <;>
              simp_all [handle_exit]
  exact ⟨key.1, key.2.1, key.2.2, sar_low_byte_recombine _, low_byte_lt _⟩

/-- C7: whenever the fork probe fires for a whole-process fork whose parent
passes the trace decision, the child tgid is added to the tgid closure before
the FORK record is written to the ring buffer: in the action sequence, every
ring write is preceded by the closure insertion of the child, and the child
is in the final closure. -/
theorem trace_fork_child_added_before_fork_write (cfg : TracexecConfig)
    (fc : ForkCtx) (s : TraceState)
    (h1 : fc.child_pid_ok = true) (h2 : fc.child_tgid_ok = true)
    (h3 : fc.child_pid = fc.child_tgid) (h4 : fc.parent_tgid_ok = true)
    (h5 : (should_trace cfg fc.task s fc.parent_tgid).1 = true) :
    fc.child_pid ∈ (trace_fork cfg fc s).1.tgid_closure ∧
    ∀ i r, (trace_fork cfg fc s).2.1.get? i = some (Op.ringWrite r) →
      ∃ j, j < i ∧ (trace_fork cfg fc s).2.1.get? j
        = some (Op.addClosure fc.child_pid) := by
  rcases hst : should_trace cfg fc.task s fc.parent_tgid with ⟨tr, s1⟩
  rw [hst] at h5
  simp only at h5
  subst h5
  cases hcpu : fc.cpu_ok <;> cases hcache : fc.cache_ok <;>
    cases hring : fc.ring_ok <;>
      simp only [trace_fork, h1, h2, h3, h4, hst, hcpu, hcache, hring,
        add_tgid_to_closure, Bool.not_true, Bool.not_false, if_true, if_false,
        ne_eq, not_true_eq_false, Bool.false_eq_true, ite_false, ite_true,
        List.mem_cons, List.nil_append, List.cons_append] <;>
        refine ⟨by simp, ?_⟩ <;> intro i r hi <;>
          match i with
          | 0 => simp at hi
          | 1 => exact ⟨0, by omega, rfl⟩
          | (n + 2) => simp at hi

/-- C8: at exec entry the per-pid slot is `NOEXIST`-inserted; a failed
insertion (key present or map full) bumps the drop counter by one, leaves the
map unchanged and aborts the attempt.  At exec exit an existing slot is
always deleted, both on the traced path (where the stored event is emitted as
`SYSEXIT` when the ring accepts it) and on the untraced path (no emission),
and the drop counter is untouched. -/
theorem exec_slot_lifecycle (full : Bool) (st st2 : ExecMapState) (pid : Int)
    (traced ring_ok : Bool) (stored : Record) :
    ((st.slots.contains pid || full) = true →
      exec_entry_slot_insert full st pid
        = ({ st with drops := st.drops + 1 }, false)) ∧
    (st2.slots.contains pid = true →
      (tp_sys_exit_exec st2 pid traced ring_ok stored).1
          = { st2 with slots := st2.slots.erase pid } ∧
      (tp_sys_exit_exec st2 pid traced ring_ok stored).2
          = if traced && ring_ok then [stored] else []) := by
  constructor
  · intro h
    simp at h
    rcases h with h | h <;> simp [exec_entry_slot_insert, h]
  · intro h
    simp at h
    cases traced <;> cases ring_ok <;> simp [tp_sys_exit_exec, h]

/-! ## C1: read_strings (tracexec_system.bpf.c lines 804-865)

`trace_exec_common` runs one `bpf_loop(ARGC_MAX, read_strings, ...)` over
argv with `ctx->index = 0` and a second one over envp with `ctx->index = 1`
(lines 279-289); the STRING record id is
`index + ctx->index * event->count[0]` (line 837). -/

/-- `_SC_ARG_MAX` from interface.h: size of the string staging buffer. -/
def SC_ARG_MAX : Nat := 2097152

/-- Outcome of `bpf_probe_read_user_str` for one argv/envp string: failure,
or `n` bytes read (NUL included) with the string content. -/
inductive StrRead where
  | fail
  | bytes (n : Nat) (data : String)
deriving DecidableEq, Repr

/-- Outcome of reading the argv/envp array entry at one index: failed pointer
read, NULL terminator, or a pointer to a string. -/
inductive PtrRead where
  | fail
  | nullp
  | str (r : StrRead)
deriving DecidableEq, Repr

/-- Oracle inputs of one `read_strings` `bpf_loop` run.  `read_strings` sets
`type`, `pid`, `eid` and `id` of the staging slot's header but never clears
its `flags`, so each STRING record's flags OR over the stale value the slot
held at that iteration (`stale_flags`). -/
structure StringsEnv where
  ptrs : Nat → PtrRead
  stale_flags : Nat → Nat
  cpu_ok : Bool
  cache_ok : Bool
  ring_ok : Bool

/-- The `exec_event` fields `read_strings` touches: `count[0]`, `count[1]`
and the parent header flags. -/
structure StrState where
  count0 : Nat
  count1 : Nat
  flags : Nat
deriving DecidableEq, Repr

/-- The record flags of one STRING record: `STR_READ_FAILURE` when the string
read failed (the data is replaced by an empty string), `POSSIBLE_TRUNCATION`
when the read filled the whole staging buffer (lines 838-851). -/
def strings_emit_flags (sr : StrRead) : Nat :=
  match sr with
  | .fail => STR_READ_FAILURE
  | .bytes n _ => if n = 0 then 0 else if n = SC_ARG_MAX then POSSIBLE_TRUNCATION else 0

/-- The data carried by one STRING record (lines 838-851). -/
def strings_emit_data (sr : StrRead) : String :=
  match sr with
  | .fail => ""
  | .bytes n d => if n = 0 then "" else d

/-- `event->count[ctx->index] = index + 1` (line 857). -/
def strings_count_update (cidx index : Nat) (st : StrState) : StrState :=
  if cidx = 0 then { st with count0 := index + 1 } else { st with count1 := index + 1 }

/-- One `bpf_loop(ARGC_MAX, read_strings, &reader_ctx, 0)` run
(tracexec_system.bpf.c lines 804-865), id formula
`index + ctx->index * event->count[0]` included, as fuel recursion starting
at iteration `index`; `cidx` is `ctx->index` (0 = argv, 1 = envp). -/
def read_strings (env : StringsEnv) (cidx : Nat) (pid : Int) (eid : Nat) :
    Nat → Nat → StrState → StrState × List Record
  | 0, _, st => (st, [])
  | fuel + 1, index, st =>
    match env.ptrs index with
    | .fail => ({ st with flags := st.flags ||| PTR_READ_FAILURE }, [])
    | .nullp =>
      (if cidx = 0 then { st with count0 := index } else { st with count1 := index }, [])
    | .str sr =>
      if !env.cpu_ok then (st, [])
      else if !env.cache_ok then (st, [])
      else
        let rec0 : Record :=
          { header := { pid := pid,
                        flags := env.stale_flags index ||| strings_emit_flags sr,
                        eid := eid,
                        id := ((index + cidx * st.count0 : Nat) : Int) }
            payload := .string (strings_emit_data sr) }
        let st1 := if env.ring_ok then st else { st with flags := st.flags ||| OUTPUT_FAILURE }
        let out : List Record := if env.ring_ok then [rec0] else []
        let st2 := strings_count_update cidx index st1
        let st3 :=
          if index = ARGC_MAX - 1 then { st2 with flags := st2.flags ||| TOO_MANY_ITEMS }
          else st2
        let (st4, recs) := read_strings env cidx pid eid fuel (index + 1) st3
        (st4, out ++ recs)

/-- The argv-then-envp streaming of `trace_exec_common` (lines 279-289): the
argv run with `ctx->index = 0` followed by the envp run with
`ctx->index = 1`, both starting from the zero-initialized counts
(line 253). -/
def exec_read_argv_envp (envA envE : StringsEnv) (pid : Int) (eid : Nat) :
    StrState × List Record × List Record :=
  let st0 : StrState := { count0 := 0, count1 := 0, flags := 0 }
  let r1 := read_strings envA 0 pid eid ARGC_MAX 0 st0
  let r2 := read_strings envE 1 pid eid ARGC_MAX 0 r1.1
  (r2.1, r1.2, r2.2)

theorem read_strings_argv_run (env : StringsEnv) (pid : Int) (eid : Nat)
    (hring : env.ring_ok = true) :
    ∀ fuel idx st, st.count0 = idx →
      ((read_strings env 0 pid eid fuel idx st).2).map (fun r => r.header.id)
        = (List.range' idx ((read_strings env 0 pid eid fuel idx st).2).length).map
            (fun n => (n : Int))
      ∧ (read_strings env 0 pid eid fuel idx st).1.count0
          = idx + ((read_strings env 0 pid eid fuel idx st).2).length
      ∧ (read_strings env 0 pid eid fuel idx st).1.count1 = st.count1 := by
  intro fuel
  induction fuel with
  | zero => intro idx st h; simp [read_strings, h]
  | succ fuel ih =>
    intro idx st h
    cases hp : env.ptrs idx with
    | fail => simp [read_strings, hp, h]
    | nullp => simp [read_strings, hp]
    | str sr =>
      cases hcpu : env.cpu_ok with
      | false => simp [read_strings, hp, hcpu, h]
      | true =>
        cases hcache : env.cache_ok with
        | false => simp [read_strings, hp, hcpu, hcache, h]
        | true =>
          simp only [read_strings, hp, hcpu, hcache, hring, strings_count_update,
            Bool.not_true, Bool.false_eq_true, if_false, ite_true, ite_false,
            if_true]
          obtain ⟨A, B, C⟩ := ih (idx + 1)
            (if idx = ARGC_MAX - 1
              then { count0 := idx + 1, count1 := st.count1, flags := st.flags ||| TOO_MANY_ITEMS }
              else { count0 := idx + 1, count1 := st.count1, flags := st.flags })
            (by split <;> rfl)
          refine ⟨?_, ?_, ?_⟩
          · simp only [List.map_append, List.length_append, List.length_singleton,
              List.map_cons, List.map_nil, List.singleton_append, Nat.zero_mul,
              Nat.add_zero, A]
            rw [List.length_cons, List.range'_succ]
            simp
          · simp only [List.length_append, B]
            simp
            omega
          · rw [C]
            split <;> rfl

theorem read_strings_envp_run (env : StringsEnv) (pid : Int) (eid : Nat)
    (hring : env.ring_ok = true) :
    ∀ fuel idx st, st.count1 = idx →
      ((read_strings env 1 pid eid fuel idx st).2).map (fun r => r.header.id)
        = (List.range' (idx + st.count0)
            ((read_strings env 1 pid eid fuel idx st).2).length).map
            (fun n => (n : Int))
      ∧ (read_strings env 1 pid eid fuel idx st).1.count1
          = idx + ((read_strings env 1 pid eid fuel idx st).2).length
      ∧ (read_strings env 1 pid eid fuel idx st).1.count0 = st.count0 := by
  intro fuel
  induction fuel with
  | zero => intro idx st h; simp [read_strings, h]
  | succ fuel ih =>
    intro idx st h
    cases hp : env.ptrs idx with
    | fail => simp [read_strings, hp, h]
    | nullp => simp [read_strings, hp, h]
    | str sr =>
      cases hcpu : env.cpu_ok with
      | false => simp [read_strings, hp, hcpu, h]
      | true =>
        cases hcache : env.cache_ok with
        | false => simp [read_strings, hp, hcpu, hcache, h]
        | true =>
          simp only [read_strings, hp, hcpu, hcache, hring, strings_count_update,
            Bool.not_true, Bool.false_eq_true, if_false, ite_true, ite_false,
            if_true, Nat.one_ne_zero, Nat.one_mul]
          obtain ⟨A, B, C⟩ := ih (idx + 1)
            (if idx = ARGC_MAX - 1
              then { count0 := st.count0, count1 := idx + 1, flags := st.flags ||| TOO_MANY_ITEMS }
              else { count0 := st.count0, count1 := idx + 1, flags := st.flags })
            (by split <;> rfl)
          have hc0 : (if idx = ARGC_MAX - 1
              then ({ count0 := st.count0, count1 := idx + 1, flags := st.flags ||| TOO_MANY_ITEMS } : StrState)
              else { count0 := st.count0, count1 := idx + 1, flags := st.flags }).count0
              = st.count0 := by split <;> rfl
          rw [hc0] at A
          rw [show idx + 1 + st.count0 = idx + st.count0 + 1 from by omega] at A
          refine ⟨?_, ?_, ?_⟩
          · simp only [List.map_append, List.length_append, List.length_singleton,
              List.map_cons, List.map_nil, List.singleton_append, A]
            rw [List.length_cons, List.range'_succ]
            simp
          · simp only [List.length_append, B]
            simp
            omega
          · rw [C, hc0]

/-- C1: each STRING record emitted for argv position `i` carries header
`id = i`, and each one emitted for envp position `j` carries
`id = argc + j`, where `argc = count[0]` and `envc = count[1]` are the counts
the terminating SYSEXIT reports; the ids of the STRING records therefore form
the ordinals of the concatenated argv-then-envp stream, `0..argc-1` for argv
followed by `argc..argc+envc-1` for envp (assuming the ring buffer accepted
every record). -/
theorem string_record_ids (envA envE : StringsEnv) (pid : Int) (eid : Nat)
    (hA : envA.ring_ok = true) (hE : envE.ring_ok = true) :
    ((exec_read_argv_envp envA envE pid eid).2.1).map (fun r => r.header.id)
      = (List.range (exec_read_argv_envp envA envE pid eid).1.count0).map
          (fun n => (n : Int)) ∧
    ((exec_read_argv_envp envA envE pid eid).2.2).map (fun r => r.header.id)
      = (List.range' (exec_read_argv_envp envA envE pid eid).1.count0
          (exec_read_argv_envp envA envE pid eid).1.count1).map
          (fun n => (n : Int)) := by
  obtain ⟨A1, B1, D1⟩ := read_strings_argv_run envA pid eid hA ARGC_MAX 0
    { count0 := 0, count1 := 0, flags := 0 } rfl
  obtain ⟨A2, B2, D2⟩ := read_strings_envp_run envE pid eid hE ARGC_MAX 0
    (read_strings envA 0 pid eid ARGC_MAX 0 { count0 := 0, count1 := 0, flags := 0 }).1
    D1
  simp only [exec_read_argv_envp]
  constructor
  · rw [A1, D2, B1, List.range_eq_range']
    simp
  · rw [A2, D2, B2]
    simp

/-! ## fd bitmap scanning (tracexec_system.bpf.c lines 637-733)

`generic___ffs` and `find_next_bit` over one 64-bit word of `open_fds`. -/

/-- One conditional narrowing step of `generic___ffs`: when the low `m` bits
of the running word are all zero, skip past them (lines 642-665 test masks
`0xffffffff`, `0xffff`, `0xff`, `0xf`, `0x3`, each being `2 ^ m - 1`). -/
def ffs_step (m : Nat) (p : Nat × Nat) : Nat × Nat :=
  if p.2 &&& (2 ^ m - 1) = 0 then (p.1 + m, p.2 >>> m) else p

/-- `generic___ffs` (tracexec_system.bpf.c lines 639-667): position of the
lowest set bit of a nonzero 64-bit word. -/
def generic_ffs (word : Nat) : Nat :=
  let p := ffs_step 32 (0, word)
  let p := ffs_step 16 p
  let p := ffs_step 8 p
  let p := ffs_step 4 p
  let p := ffs_step 2 p
  if p.2 &&& 1 = 0 then p.1 + 1 else p.1

theorem ffs_step_inv (orig m : Nat) (p : Nat × Nat)
    (h1 : orig >>> p.1 = p.2) (h2 : orig % 2 ^ p.1 = 0)
    (h3 : p.2 % 2 ^ (2 * m) ≠ 0) :
    orig >>> (ffs_step m p).1 = (ffs_step m p).2
    ∧ orig % 2 ^ (ffs_step m p).1 = 0
    ∧ (ffs_step m p).2 % 2 ^ m ≠ 0 := by
  unfold ffs_step
  rw [Nat.and_pow_two_sub_one_eq_mod]
  split
  next hc =>
    refine ⟨?_, ?_, ?_⟩
    · simp only [Nat.shiftRight_add, h1]
    · have hd1 : 2 ^ p.1 ∣ orig := Nat.dvd_iff_mod_eq_zero.mpr h2
      have hq : orig / 2 ^ p.1 = p.2 := by
        rw [← Nat.shiftRight_eq_div_pow, h1]
      have hd2 : 2 ^ m ∣ p.2 := Nat.dvd_iff_mod_eq_zero.mpr hc
      have : 2 ^ (p.1 + m) ∣ orig := by
        rw [pow_add]
        rcases hd1 with ⟨k, hk⟩
        rcases hd2 with ⟨l, hl⟩
        refine ⟨l, ?_⟩
        rw [hk]
        have : k = p.2 := by
          rw [← hq, hk, Nat.mul_div_cancel_left _ (Nat.pos_pow_of_pos _ (by norm_num))]
        rw [this, hl]
        ring
      exact Nat.dvd_iff_mod_eq_zero.mp this
    · intro hzero
      apply h3
      have hd2 : 2 ^ m ∣ p.2 := Nat.dvd_iff_mod_eq_zero.mpr hc
      have hd3 : 2 ^ m ∣ p.2 >>> m := Nat.dvd_iff_mod_eq_zero.mpr hzero
      have : 2 ^ (2 * m) ∣ p.2 := by
        rw [two_mul, pow_add]
        rcases hd3 with ⟨l, hl⟩
        rw [Nat.shiftRight_eq_div_pow] at hl
        rcases hd2 with ⟨k, hk⟩
        have hkl : k = 2 ^ m * l := by
          rw [hk, Nat.mul_div_cancel_left _ (Nat.pos_pow_of_pos _ (by norm_num))] at hl
          exact hl
        exact ⟨l, by rw [hk, hkl]; ring⟩
      exact Nat.dvd_iff_mod_eq_zero.mp this
  next hc =>
    exact ⟨h1, h2, hc⟩

theorem testBit_eq_false_of_mod_pow {w n j : Nat} (h : w % 2 ^ n = 0)
    (hj : j < n) : Nat.testBit w j = false := by
  have h2 := Nat.testBit_mod_two_pow w n j
  rw [h, Nat.zero_testBit] at h2
  simp [hj] at h2
  exact h2

theorem ffs_final (w : Nat) (p : Nat × Nat)
    (h1 : w >>> p.1 = p.2) (h2 : w % 2 ^ p.1 = 0) (h3 : p.2 % 2 ^ 2 ≠ 0) :
    Nat.testBit w (if p.2 &&& 1 = 0 then p.1 + 1 else p.1) = true
    ∧ ∀ j, j < (if p.2 &&& 1 = 0 then p.1 + 1 else p.1) →
        Nat.testBit w j = false := by
  have hbit : ∀ k, Nat.testBit w (p.1 + k) = Nat.testBit p.2 k := by
    intro k
    rw [← Nat.testBit_shiftRight, h1]
  have h4 : p.2 % 4 ≠ 0 := by simpa using h3
  rw [Nat.and_one_is_mod]
  split
  next hc =>
    constructor
    · rw [hbit 1, Nat.testBit_to_div_mod]
      simp only [pow_one, decide_eq_true_eq]
      omega
    · intro j hj
      rcases Nat.lt_succ_iff_lt_or_eq.mp hj with hlt | heq
      · exact testBit_eq_false_of_mod_pow h2 hlt
      · subst heq
        have h0 := hbit 0
        rw [Nat.add_zero] at h0
        rw [h0, Nat.testBit_to_div_mod]
        simp only [pow_zero, Nat.div_one, decide_eq_true_eq]
        simp only [decide_eq_false_iff_not]
        omega
  next hc =>
    constructor
    · have h0 := hbit 0
      rw [Nat.add_zero] at h0
      rw [h0, Nat.testBit_to_div_mod]
      simp only [pow_zero, Nat.div_one, decide_eq_true_eq]
      omega
    · intro j hj
      exact testBit_eq_false_of_mod_pow h2 hj

/-- Correctness of `generic___ffs`: on a nonzero 64-bit word it returns the
position of the lowest set bit. -/
theorem generic_ffs_spec (w : Nat) (h64 : w < 2 ^ 64) (hw : w ≠ 0) :
    Nat.testBit w (generic_ffs w) = true
    ∧ ∀ j, j < generic_ffs w → Nat.testBit w j = false := by
  have h0 : w % 2 ^ (2 * 32) ≠ 0 := by
    have he : (2 : Nat) ^ (2 * 32) = 2 ^ 64 := by norm_num
    rw [he, Nat.mod_eq_of_lt h64]
    exact hw
  have s1 := ffs_step_inv w 32 (0, w) (by simp) (by simp [Nat.mod_one]) h0
  have s2 := ffs_step_inv w 16 _ s1.1 s1.2.1 (by simpa using s1.2.2)
  have s3 := ffs_step_inv w 8 _ s2.1 s2.2.1 (by simpa using s2.2.2)
  have s4 := ffs_step_inv w 4 _ s3.1 s3.2.1 (by simpa using s3.2.2)
  have s5 := ffs_step_inv w 2 _ s4.1 s4.2.1 (by simpa using s4.2.2)
  simp only [generic_ffs]
  exact ffs_final w _ s5.1 s5.2.1 s5.2.2

/-- `GENMASK(h, l)` (common.h lines 28-33) on 64-bit longs. -/
def GENMASK (h l : Nat) : Nat :=
  ((2 ^ 64 - 1) - (1 <<< l) + 1) &&& ((2 ^ 64 - 1) >>> (BITS_PER_LONG - 1 - h))

/-- `find_next_bit` (tracexec_system.bpf.c lines 674-680): position of the
next set bit at or above `offset`, or `BITS_PER_LONG` when there is none. -/
def find_next_bit (bitmap : Nat) (offset : Nat) : Nat :=
  if offset ≥ BITS_PER_LONG then BITS_PER_LONG
  else
    let b := bitmap &&& GENMASK (BITS_PER_LONG - 1) offset
    if b ≠ 0 then generic_ffs b else BITS_PER_LONG

theorem GENMASK_63 (l : Nat) (hl : l < 64) : GENMASK 63 l = 2 ^ 64 - 2 ^ l := by
  unfold GENMASK BITS_PER_LONG
  have h1 : (1 : Nat) <<< l = 2 ^ l := Nat.one_shiftLeft l
  have h2 : (2 ^ 64 - 1 : Nat) >>> (64 - 1 - 63) = 2 ^ 64 - 1 := by norm_num
  rw [h1, h2]
  have h3 : (2 : Nat) ^ l < 2 ^ 64 := Nat.pow_lt_pow_right (by norm_num) hl
  have h4 : (2 ^ 64 - 1 : Nat) - 2 ^ l + 1 = 2 ^ 64 - 2 ^ l := by omega
  rw [h4, Nat.and_pow_two_sub_one_eq_mod]
  have h5 : (2 : Nat) ^ 64 - 2 ^ l < 2 ^ 64 := by
    have : (0 : Nat) < 2 ^ l := Nat.pos_pow_of_pos _ (by norm_num)
    omega
  exact Nat.mod_eq_of_lt h5

theorem GENMASK_63_testBit (l j : Nat) (hl : l < 64) :
    (GENMASK 63 l).testBit j = (decide (l ≤ j) && decide (j < 64)) := by
  rw [GENMASK_63 l hl]
  have he : (2 : Nat) ^ 64 - 2 ^ l = (2 ^ (64 - l) - 1) <<< l := by
    rw [Nat.shiftLeft_eq, Nat.sub_mul, ← pow_add, one_mul]
    congr 2
    omega
  rw [he, Nat.testBit_shiftLeft, Nat.testBit_two_pow_sub_one]
  rcases Nat.lt_or_ge j l with hj | hj
  · simp [Nat.not_le.mpr hj]
  · have hiff : (j - l < 64 - l) ↔ (j < 64) := by omega
    simp [hj, hiff]

theorem and_mask_testBit (w l j : Nat) (hl : l < 64) :
    (w &&& GENMASK 63 l).testBit j
      = (w.testBit j && (decide (l ≤ j) && decide (j < 64))) := by
  rw [Nat.testBit_and, GENMASK_63_testBit l j hl]

/-- Correctness of `find_next_bit` on a 64-bit word: the result is either 64
with no set bit in `[offset, 64)`, or the least set bit at or above
`offset`. -/
theorem find_next_bit_spec (w o : Nat) (h64 : w < 2 ^ 64) :
    (find_next_bit w o = 64 ∧ ∀ j, o ≤ j → j < 64 → w.testBit j = false)
    ∨ (o ≤ find_next_bit w o ∧ find_next_bit w o < 64
       ∧ w.testBit (find_next_bit w o) = true
       ∧ ∀ j, o ≤ j → j < find_next_bit w o → w.testBit j = false) := by
  rcases Nat.lt_or_ge o 64 with ho | ho
  · have hunf : find_next_bit w o
        = (if w &&& GENMASK 63 o ≠ 0 then generic_ffs (w &&& GENMASK 63 o) else 64) := by
      unfold find_next_bit BITS_PER_LONG
      rw [if_neg (by omega)]
    by_cases hb : w &&& GENMASK 63 o = 0
    · left
      rw [hunf, if_neg (by simpa using hb)]
      refine ⟨rfl, ?_⟩
      intro j hj1 hj2
      have hthis := and_mask_testBit w o j ho
      rw [hb, Nat.zero_testBit] at hthis
      simpa [hj1, hj2] using hthis.symm
    · right
      rw [hunf, if_pos (by simpa using hb)]
      have hb64 : w &&& GENMASK 63 o ≤ w := Nat.and_le_left
      obtain ⟨hset, hmin⟩ := generic_ffs_spec (w &&& GENMASK 63 o)
        (Nat.lt_of_le_of_lt hb64 h64) hb
      have hk := and_mask_testBit w o (generic_ffs (w &&& GENMASK 63 o)) ho
      rw [hset] at hk
      have hk2 := hk.symm
      simp only [Bool.and_eq_true, decide_eq_true_eq] at hk2
      refine ⟨hk2.2.1, hk2.2.2, hk2.1, ?_⟩
      intro j hj1 hj2
      have hm := hmin j hj2
      have hthis := and_mask_testBit w o j ho
      rw [hm] at hthis
      have hj3 : j < 64 := by omega
      simpa [hj1, hj3] using hthis.symm
  · left
    have hunf : find_next_bit w o = 64 := by
      unfold find_next_bit BITS_PER_LONG
      rw [if_pos (by omega)]
    exact ⟨hunf, fun j hj1 hj2 => absurd hj2 (by omega)⟩

/-! ## Path resolution (tracexec_system.bpf.c lines 882-1162)

Dentries and mounts are modelled by `Nat` identifiers; the kernel memory
reachable from them is an oracle environment.  The per-CPU `path_event_cache`
array lookup cannot fail for index 0 and is modelled as succeeding. -/

/-- Outcome of reading `dentry->d_name.name` and then the name string:
failed pointer read, failed string read, empty string (replaced by the
`[tracexec: unknown]` sentinel, lines 953-956), or the name. -/
inductive NameRead where
  | ptrFail
  | strFail
  | empty
  | ok (s : String)
deriving DecidableEq, Repr

/-- Oracle environment for the path walk: one entry per kernel read the
source performs (`none` = the read failed), plus the ring-buffer success
oracle (`ring_ok` covers `bpf_ringbuf_reserve` and `bpf_ringbuf_output`). -/
structure PathWalkEnv where
  /-- `dentry->d_parent`. -/
  dparent : Nat → Option Nat
  /-- `dentry->d_name.name` and the name string read. -/
  dname : Nat → NameRead
  /-- `mnt->mnt_mountpoint`. -/
  mnt_mountpoint : Nat → Option Nat
  /-- `mnt->mnt_parent`. -/
  mnt_parent : Nat → Option Nat
  /-- `mnt.mnt_root` of a mount (also used for the starting `vfsmount`). -/
  mnt_root : Nat → Option Nat
  /-- `mnt->mnt_id`. -/
  mnt_id : Nat → Option Int
  /-- `vfsmnt->mnt_sb->s_type->name` followed by the string read. -/
  fstype : Nat → Option String
  /-- `current->fs->root.dentry` (`none` = NULL / failed read). -/
  task_root : Option Nat
  ring_ok : Bool

/-- `struct path_segment_ctx` (tracexec_system.bpf.c lines 882-888). -/
structure SegCtx where
  dentry : Nat
  mnt_root : Nat
  root : Nat
  base_index : Nat
deriving DecidableEq, Repr

/-- Flags and content of one PATH_SEGMENT record as the name reads determine
them (lines 939-956). -/
def seg_flags_data : NameRead → Nat × String
  | .ptrFail => (PTR_READ_FAILURE, "")
  | .strFail => (STR_READ_FAILURE, "")
  | .empty => (0, "[tracexec: unknown]")
  | .ok s => (0, s)

/-- Result of one dentry-segment `bpf_loop` run: final context, accumulated
path-event flags, emitted records, and whether the loop exited through one of
its `break`s (rather than by exhausting its iteration budget). -/
structure SegLoopResult where
  ctx : SegCtx
  pflags : Nat
  recs : List Record
  broke : Bool
deriving DecidableEq, Repr

/-- `read_send_dentry_segment` iterated by
`bpf_loop(PATH_DEPTH_MAX, read_send_dentry_segment, ctx, 0)`
(tracexec_system.bpf.c lines 910-981): reserve a ring slot (a failed reserve
sets `OUTPUT_FAILURE` and breaks), stop when the dentry reached the mount
root or the fs root (adding `index` to `base_index`), otherwise emit one
segment with `index + base_index`, then follow `d_parent` (a failed read sets
`BAIL_OUT`, NULLs the dentry and breaks; reaching the top breaks), adding
`index + 1` to `base_index` at those breaks. -/
def read_send_dentry_segment (env : PathWalkEnv) (eid : Nat) (pid : Int)
    (path_id : Int) : Nat → Nat → SegCtx → Nat → SegLoopResult
  | 0, _, ctx, pflags => ⟨ctx, pflags, [], false⟩
  | fuel + 1, index, ctx, pflags =>
    if !env.ring_ok then ⟨ctx, pflags ||| OUTPUT_FAILURE, [], true⟩
    else if ctx.dentry = ctx.mnt_root ∨ ctx.dentry = ctx.root then
      ⟨{ ctx with base_index := ctx.base_index + index }, pflags, [], true⟩
    else
      let fd := seg_flags_data (env.dname ctx.dentry)
      let rec0 : Record :=
        { header := { pid := pid, flags := fd.1, eid := eid, id := path_id }
          payload := .seg (index + ctx.base_index) fd.2 }
      match env.dparent ctx.dentry with
      | none =>
        ⟨{ ctx with dentry := 0, base_index := ctx.base_index + index + 1 },
          pflags ||| BAIL_OUT, [rec0], true⟩
      | some parent =>
        if parent = ctx.dentry then
          ⟨{ ctx with base_index := ctx.base_index + index + 1 }, pflags, [rec0], true⟩
        else
          let r := read_send_dentry_segment env eid pid path_id fuel (index + 1)
            { ctx with dentry := parent } pflags
          ⟨r.ctx, r.pflags, rec0 :: r.recs, r.broke⟩

/-- Result of the mount-walk `bpf_loop`. -/
structure MountLoopResult where
  base_index : Nat
  pflags : Nat
  recs : List Record
  all_broke : Bool
deriving DecidableEq, Repr

/-- `read_send_mount_segments` iterated by
`bpf_loop(PATH_DEPTH_MAX, read_send_mount_segments, &ctx, 0)`
(tracexec_system.bpf.c lines 993-1053): read the mountpoint dentry, the
parent mount, the parent's mount root and the mount id (any failure takes
`err_out`, which continues with unchanged state); break when the mount is its
own parent; otherwise run the dentry-segment loop from the mountpoint with
the parent's mount root as the new stop and continue on the parent mount. -/
def read_send_mount_segments (env : PathWalkEnv) (eid : Nat) (pid : Int)
    (path_id : Int) (root : Nat) : Nat → Nat → Nat → Nat → MountLoopResult
  | 0, _, base, pflags => ⟨base, pflags, [], true⟩
  | fuel + 1, mnt, base, pflags =>
    match env.mnt_mountpoint mnt, env.mnt_parent mnt with
    | some mountpoint, some parent =>
      match env.mnt_root parent, env.mnt_id mnt with
      | some parent_root, some _ =>
        if parent = mnt then ⟨base, pflags, [], true⟩
        else
          let r := read_send_dentry_segment env eid pid path_id PATH_DEPTH_MAX 0
            { dentry := mountpoint, mnt_root := parent_root, root := root,
              base_index := base } pflags
          let rest := read_send_mount_segments env eid pid path_id root fuel
            parent r.ctx.base_index r.pflags
          ⟨rest.base_index, rest.pflags, r.recs ++ rest.recs,
            r.broke && rest.all_broke⟩
      | _, _ => read_send_mount_segments env eid pid path_id root fuel mnt base pflags
    | _, _ => read_send_mount_segments env eid pid path_id root fuel mnt base pflags

/-- The terminating PATH record (`struct path_event`). -/
def path_record (eid : Nat) (pid : Int) (path_id : Int) (flags cnt : Nat) : Record :=
  { header := { pid := pid, flags := flags, eid := eid, id := path_id }
    payload := .path cnt }

/-- The `mnt_id`/`fstype` information `read_send_path` stores into a non-NULL
`fd_event` (lines 1119-1135): `mnt_id = none` means the read failed
(`MNTID_READ_ERR`); a failed fstype read stores the sentinel. -/
structure FdPathInfo where
  mnt_id : Option Int
  fstype : String
deriving DecidableEq, Repr

/-- Result of `read_send_path`: the return value, the emitted records in
producer order, whether every inner dentry loop broke within its budget, and
the fd information (`none` when the walk failed before reaching it). -/
structure PathResult where
  ret : Int
  recs : List Record
  all_broke : Bool
  fd_info : Option FdPathInfo
deriving DecidableEq, Repr

/-- `read_send_path` (tracexec_system.bpf.c lines 1062-1162): initialize the
path event, read the task's fs root and the vfsmount root (failure emits the
PATH with `PTR_READ_FAILURE` and count 0 and returns -1), run the
dentry-segment loop, store `mnt_id`/`fstype` into the fd event when asked,
run the mount loop, finally emit the PATH with `segment_count` equal to the
accumulated `base_index`. -/
def read_send_path (env : PathWalkEnv) (dentry0 mnt0 : Nat) (eid : Nat)
    (pid : Int) (path_id : Int) (for_fd : Bool) : PathResult :=
  match env.task_root with
  | none =>
    { ret := -1
      recs := if env.ring_ok then [path_record eid pid path_id PTR_READ_FAILURE 0] else []
      all_broke := true
      fd_info := none }
  | some root =>
    match env.mnt_root mnt0 with
    | none =>
      { ret := -1
        recs := if env.ring_ok then [path_record eid pid path_id PTR_READ_FAILURE 0] else []
        all_broke := true
        fd_info := none }
    | some mroot =>
      let r := read_send_dentry_segment env eid pid path_id PATH_DEPTH_MAX 0
        { dentry := dentry0, mnt_root := mroot, root := root, base_index := 0 } 0
      let finfo : Option FdPathInfo :=
        if for_fd then
          some { mnt_id := env.mnt_id mnt0
                 fstype := match env.fstype mnt0 with
                   | none => "[tracexec: unknown]"
                   | some s => s }
        else none
      let m := read_send_mount_segments env eid pid path_id root PATH_DEPTH_MAX
        mnt0 r.ctx.base_index r.pflags
      { ret := if env.ring_ok then 0 else -1
        recs := r.recs ++ m.recs
          ++ (if env.ring_ok then [path_record eid pid path_id m.pflags m.base_index] else [])
        all_broke := r.broke && m.all_broke
        fd_info := finfo }

/-! ## _read_fd and the fd-table scan
(tracexec_system.bpf.c lines 684-802) -/

/-- Oracle for the per-fd kernel reads of `_read_fd`, together with the
contents the per-CPU staging slot still holds from its previous use:
`_read_fd` never clears `entry->header.flags`, `entry->header.id`,
`entry->ino`, `entry->mnt_id` or `entry->fstype`, and clears `entry->flags`
only after the two `ptr_err` exits, so those stale values can reach the ring
on the corresponding paths. -/
structure FileReads where
  /-- the read of `fd_array[fd_num]` succeeded. -/
  file_ok : Bool
  pos_ok : Bool
  pos : Int
  ino_ok : Bool
  ino : Nat
  /-- the read of `file->f_path` succeeded. -/
  fpath_ok : Bool
  /-- `file->f_path.dentry`. -/
  path_dentry : Nat
  /-- the mount of `file->f_path.mnt`. -/
  path_mnt : Nat
  fflags_ok : Bool
  /-- `file->f_flags`. -/
  fflags : Nat
  /-- stale staging contents. -/
  stale_hdr_flags : Nat
  stale_hdr_id : Int
  stale_oflags : Nat
  stale_mnt_id : Int
  stale_ino : Nat
  stale_pos : Int
  stale_fstype : String
deriving DecidableEq, Repr

/-- The `exec_event` fields `_read_fd` touches. -/
structure ExecEventFd where
  pid : Int
  eid : Nat
  hdr_flags : Nat
  fd_count : Nat
  path_count : Nat
deriving DecidableEq, Repr

/-- `_read_fd` (tracexec_system.bpf.c lines 736-802): bump `fd_count`, bail
out of the staging checks, read the file struct (failure takes `ptr_err`:
emit the FD record with `PTR_READ_FAILURE` OR-ed into the stale header flags
and `path_id = -1`), read pos/ino, read `f_path` (failure takes `ptr_err`),
allocate the next `path_id`, resolve the path, read `f_flags` and OR in
`O_CLOEXEC` for a close-on-exec fd, and emit the FD record. -/
def _read_fd (env : PathWalkEnv) (fr : FileReads) (cpu_ok cache_ok : Bool)
    (fd_num : Nat) (cloexec : Bool) (ev : ExecEventFd) :
    ExecEventFd × List Record × Int :=
  let ev1 := { ev with fd_count := ev.fd_count + 1 }
  if !cpu_ok then (ev1, [], 1)
  else if !cache_ok then (ev1, [], 1)
  else if !fr.file_ok then
    let rec0 : Record :=
      { header := { pid := ev.pid, flags := fr.stale_hdr_flags ||| PTR_READ_FAILURE,
                    eid := ev.eid, id := fr.stale_hdr_id }
        payload := .fd fd_num fr.stale_oflags fr.stale_mnt_id (-1)
          fr.stale_ino fr.stale_pos fr.stale_fstype }
    (ev1, if env.ring_ok then [rec0] else [], 1)
  else
    let posflag := if fr.pos_ok then 0 else POS_READ_ERR
    let posval := if fr.pos_ok then fr.pos else 0
    let inoflag := if fr.ino_ok then 0 else INO_READ_ERR
    let inoval := if fr.ino_ok then fr.ino else fr.stale_ino
    if !fr.fpath_ok then
      let rec0 : Record :=
        { header := { pid := ev.pid,
                      flags := fr.stale_hdr_flags ||| posflag ||| inoflag ||| PTR_READ_FAILURE,
                      eid := ev.eid, id := fr.stale_hdr_id }
          payload := .fd fd_num fr.stale_oflags fr.stale_mnt_id (-1)
            inoval posval fr.stale_fstype }
      (ev1, if env.ring_ok then [rec0] else [], 1)
    else
      let path_id : Int := (ev.path_count : Int)
      let ev2 := { ev1 with path_count := ev.path_count + 1 }
      let pr := read_send_path env fr.path_dentry fr.path_mnt ev.eid ev.pid path_id true
      let ev3 := if pr.ret < 0 then { ev2 with hdr_flags := ev2.hdr_flags ||| PATH_READ_ERR }
        else ev2
      let mntflag := match pr.fd_info with
        | some info => (match info.mnt_id with | none => MNTID_READ_ERR | some _ => 0)
        | none => 0
      let mntval := match pr.fd_info with
        | some info => (match info.mnt_id with | none => fr.stale_mnt_id | some v => v)
        | none => fr.stale_mnt_id
      let fstype := match pr.fd_info with
        | some info => info.fstype
        | none => fr.stale_fstype
      let oflags0 := if fr.fflags_ok then fr.fflags else FLAGS_READ_FAILURE
      let oflags := if cloexec then oflags0 ||| O_CLOEXEC else oflags0
      let rec0 : Record :=
        { header := { pid := ev.pid,
                      flags := fr.stale_hdr_flags ||| posflag ||| inoflag ||| mntflag,
                      eid := ev.eid, id := fr.stale_hdr_id }
          payload := .fd fd_num oflags mntval path_id inoval posval fstype }
      (ev3, pr.recs ++ (if env.ring_ok then [rec0] else []), 0)

/-- Oracle environment for one fd-table word scan. -/
structure FdScanEnv where
  kern : PathWalkEnv
  files : Nat → FileReads
  cpu_ok : Bool
  cache_ok : Bool

/-- `read_fdset_word` iterated by
`bpf_loop(BITS_PER_LONG, read_fdset_word, &subctx, 0)`
(tracexec_system.bpf.c lines 721-733): stop when `next_bit` reached
`BITS_PER_LONG`, otherwise read the fd at
`next_bit + BITS_PER_LONG * word_index` (close-on-exec iff
`cloexec & (1UL << next_bit)` is nonzero) and advance to
`find_next_bit(fdset, next_bit + 1)`. -/
def read_fdset_word (env : FdScanEnv) (fdset cloexec_word word_index : Nat) :
    Nat → Nat → ExecEventFd → ExecEventFd × List Record
  | 0, _, ev => (ev, [])
  | fuel + 1, next_bit, ev =>
    if next_bit = BITS_PER_LONG then (ev, [])
    else
      let fdnum := next_bit + BITS_PER_LONG * word_index
      let cloexec := (cloexec_word &&& (1 <<< next_bit)) ≠ 0
      let r := _read_fd env.kern (env.files fdnum) env.cpu_ok env.cache_ok
        fdnum cloexec ev
      let rest := read_fdset_word env fdset cloexec_word word_index fuel
        (find_next_bit fdset (next_bit + 1)) r.1
      (rest.1, r.2.1 ++ rest.2)

/-- `read_fds_impl` for one 64-bit word (tracexec_system.bpf.c lines
684-719): read the `open_fds` word (failure sets `FDS_PROBE_FAILURE` and
aborts) and the `close_on_exec` word (failure sets `FLAGS_READ_FAILURE` and
falls through with the zero-initialized word), skip an all-zero word, else
seed `next_bit = find_next_bit(fdset, 0)` and run the word scan. -/
def read_fds_impl (env : FdScanEnv) (word_read cloexec_read : Option Nat)
    (word_index : Nat) (ev : ExecEventFd) : ExecEventFd × List Record × Int :=
  match word_read with
  | none => ({ ev with hdr_flags := ev.hdr_flags ||| FDS_PROBE_FAILURE }, [], 1)
  | some fdset =>
    let cloexec_word := match cloexec_read with
      | none => 0
      | some c => c
    let ev1 := match cloexec_read with
      | none => { ev with hdr_flags := ev.hdr_flags ||| FLAGS_READ_FAILURE }
      | some _ => ev
    if fdset = 0 then (ev1, [], 0)
    else
      let r := read_fdset_word env fdset cloexec_word word_index BITS_PER_LONG
        (find_next_bit fdset 0) ev1
      (r.1, r.2, 0)

/-! ## Record classifiers and projections -/

def is_seg_rec (r : Record) : Bool :=
  match r.payload with
  | .seg _ _ => true
  | _ => false

def is_path_rec (r : Record) : Bool :=
  match r.payload with
  | .path _ => true
  | _ => false

def is_fd_rec (r : Record) : Bool :=
  match r.payload with
  | .fd _ _ _ _ _ _ _ => true
  | _ => false

def seg_index (r : Record) : Nat :=
  match r.payload with
  | .seg i _ => i
  | _ => 0

def fd_num_of (r : Record) : Nat :=
  match r.payload with
  | .fd n _ _ _ _ _ _ => n
  | _ => 0

def fd_oflags (r : Record) : Nat :=
  match r.payload with
  | .fd _ f _ _ _ _ _ => f
  | _ => 0

def fd_path_id (r : Record) : Int :=
  match r.payload with
  | .fd _ _ _ p _ _ _ => p
  | _ => 0

def path_seg_count (r : Record) : Nat :=
  match r.payload with
  | .path c => c
  | _ => 0

/-! ## Dentry-segment loop lemmas -/

theorem dentry_loop_all_seg (env : PathWalkEnv) (eid : Nat) (pid : Int)
    (path_id : Int) :
    ∀ fuel idx ctx pflags,
      ∀ x ∈ (read_send_dentry_segment env eid pid path_id fuel idx ctx pflags).recs,
        is_seg_rec x = true ∧ x.header.id = path_id ∧ x.header.eid = eid
          ∧ x.header.pid = pid := by
  intro fuel
  induction fuel with
  | zero => intro idx ctx pflags x hx; simp [read_send_dentry_segment] at hx
  | succ fuel ih =>
    intro idx ctx pflags x hx
    cases hr : env.ring_ok with
    | false => simp [read_send_dentry_segment, hr] at hx
    | true =>
      by_cases hstop : (ctx.dentry = ctx.mnt_root ∨ ctx.dentry = ctx.root)
      · simp [read_send_dentry_segment, hr, hstop] at hx
      · rcases hpar : env.dparent ctx.dentry with _ | parent
        · simp only [read_send_dentry_segment, hr, hstop, hpar, Bool.not_true,
            Bool.false_eq_true, if_false, ite_false, if_true, ite_true,
            List.mem_singleton] at hx
          subst hx
          exact ⟨rfl, rfl, rfl, rfl⟩
        · by_cases hpd : parent = ctx.dentry
          · simp only [read_send_dentry_segment, hr, hstop, hpar, hpd,
              Bool.not_true, Bool.false_eq_true, if_false, ite_false, if_true,
              ite_true, List.mem_singleton] at hx
            subst hx
            exact ⟨rfl, rfl, rfl, rfl⟩
          · simp only [read_send_dentry_segment, hr, hstop, hpar, hpd,
              Bool.not_true, Bool.false_eq_true, if_false, ite_false, if_true,
              ite_true, List.mem_cons] at hx
            rcases hx with hx | hx
            · subst hx
              exact ⟨rfl, rfl, rfl, rfl⟩
            · exact ih (idx + 1) _ pflags x hx

theorem dentry_loop_spec (env : PathWalkEnv) (eid : Nat) (pid : Int)
    (path_id : Int) (hring : env.ring_ok = true) :
    ∀ fuel idx ctx pflags,
      (read_send_dentry_segment env eid pid path_id fuel idx ctx pflags).recs.map
          seg_index
        = List.range' (ctx.base_index + idx)
            (read_send_dentry_segment env eid pid path_id fuel idx ctx pflags).recs.length
      ∧ ((read_send_dentry_segment env eid pid path_id fuel idx ctx pflags).broke = true →
          (read_send_dentry_segment env eid pid path_id fuel idx ctx pflags).ctx.base_index
            = ctx.base_index + idx
              + (read_send_dentry_segment env eid pid path_id fuel idx ctx pflags).recs.length) := by
  intro fuel
  induction fuel with
  | zero => intro idx ctx pflags; simp [read_send_dentry_segment]
  | succ fuel ih =>
    intro idx ctx pflags
    by_cases hstop : (ctx.dentry = ctx.mnt_root ∨ ctx.dentry = ctx.root)
    · simp [read_send_dentry_segment, hring, hstop]
    · rcases hpar : env.dparent ctx.dentry with _ | parent
      · simp only [read_send_dentry_segment, hring, hstop, hpar, Bool.not_true,
          Bool.false_eq_true, if_false, ite_false, if_true, ite_true]
        constructor
        · simp [seg_index, List.range'_succ, Nat.add_comm idx ctx.base_index]
        · intro _
          simp
      · by_cases hpd : parent = ctx.dentry
        · simp only [read_send_dentry_segment, hring, hstop, hpar, hpd,
            Bool.not_true, Bool.false_eq_true, if_false, ite_false, if_true,
            ite_true]
          constructor
          · simp [seg_index, List.range'_succ, Nat.add_comm idx ctx.base_index]
          · intro _
            simp
        · obtain ⟨A, B⟩ := ih (idx + 1) { ctx with dentry := parent } pflags
          simp only [read_send_dentry_segment, hring, hstop, hpar, hpd,
            Bool.not_true, Bool.false_eq_true, if_false, ite_false, if_true,
            ite_true, List.map_cons, List.length_cons]
          constructor
          · rw [A, List.range'_succ]
            have h1 : ctx.base_index + idx + 1 = ctx.base_index + (idx + 1) := by omega
            rw [h1]
            simp [seg_index, Nat.add_comm idx ctx.base_index]
          · intro hbroke
            have hB := B hbroke
            simp at hB
            omega

theorem range'_append_one (s m n : Nat) :
    List.range' s m ++ List.range' (s + m) n = List.range' s (m + n) := by
  have h := List.range'_append s m n 1
  rw [one_mul] at h
  rw [h, Nat.add_comm n m]

/-! ## Mount loop lemmas -/

theorem mount_loop_all_seg (env : PathWalkEnv) (eid : Nat) (pid : Int)
    (path_id : Int) (root : Nat) :
    ∀ fuel mnt base pflags,
      ∀ x ∈ (read_send_mount_segments env eid pid path_id root fuel mnt base pflags).recs,
        is_seg_rec x = true ∧ x.header.id = path_id ∧ x.header.eid = eid
          ∧ x.header.pid = pid := by
  intro fuel
  induction fuel with
  | zero => intro mnt base pflags x hx; simp [read_send_mount_segments] at hx
  | succ fuel ih =>
    intro mnt base pflags x hx
    rcases hmp : env.mnt_mountpoint mnt with _ | mountpoint
    · simp only [read_send_mount_segments, hmp] at hx
      exact ih mnt base pflags x hx
    · rcases hp : env.mnt_parent mnt with _ | parent
      · simp only [read_send_mount_segments, hmp, hp] at hx
        exact ih mnt base pflags x hx
      · rcases hroot : env.mnt_root parent with _ | parent_root
        · simp only [read_send_mount_segments, hmp, hp, hroot] at hx
          exact ih mnt base pflags x hx
        · rcases hid : env.mnt_id mnt with _ | v
          · simp only [read_send_mount_segments, hmp, hp, hroot, hid] at hx
            exact ih mnt base pflags x hx
          · by_cases hpm : parent = mnt
            · subst hpm
              simp [read_send_mount_segments, hmp, hp, hroot, hid] at hx
            · simp only [read_send_mount_segments, hmp, hp, hroot, hid, hpm,
                if_false, ite_false, List.mem_append] at hx
              rcases hx with hx | hx
              · exact dentry_loop_all_seg env eid pid path_id PATH_DEPTH_MAX 0 _ pflags x hx
              · exact ih parent _ _ x hx

theorem mount_loop_spec (env : PathWalkEnv) (eid : Nat) (pid : Int)
    (path_id : Int) (root : Nat) (hring : env.ring_ok = true) :
    ∀ fuel mnt base pflags,
      (read_send_mount_segments env eid pid path_id root fuel mnt base pflags).all_broke
          = true →
        (read_send_mount_segments env eid pid path_id root fuel mnt base pflags).recs.map
            seg_index
          = List.range' base
              (read_send_mount_segments env eid pid path_id root fuel mnt base pflags).recs.length
        ∧ (read_send_mount_segments env eid pid path_id root fuel mnt base pflags).base_index
            = base
              + (read_send_mount_segments env eid pid path_id root fuel mnt base pflags).recs.length := by
  intro fuel
  induction fuel with
  | zero => intro mnt base pflags _; simp [read_send_mount_segments]
  | succ fuel ih =>
    intro mnt base pflags hbroke
    rcases hmp : env.mnt_mountpoint mnt with _ | mountpoint
    · simp only [read_send_mount_segments, hmp] at hbroke ⊢
      exact ih mnt base pflags hbroke
    · rcases hp : env.mnt_parent mnt with _ | parent
      · simp only [read_send_mount_segments, hmp, hp] at hbroke ⊢
        exact ih mnt base pflags hbroke
      · rcases hroot : env.mnt_root parent with _ | parent_root
        · simp only [read_send_mount_segments, hmp, hp, hroot] at hbroke ⊢
          exact ih mnt base pflags hbroke
        · rcases hid : env.mnt_id mnt with _ | v
          · simp only [read_send_mount_segments, hmp, hp, hroot, hid] at hbroke ⊢
            exact ih mnt base pflags hbroke
          · by_cases hpm : parent = mnt
            · subst hpm
              simp [read_send_mount_segments, hmp, hp, hroot, hid]
            · simp only [read_send_mount_segments, hmp, hp, hroot, hid, hpm,
                if_false, ite_false, Bool.and_eq_true] at hbroke ⊢
              obtain ⟨hb1, hb2⟩ := hbroke
              obtain ⟨A, B⟩ := dentry_loop_spec env eid pid path_id hring
                PATH_DEPTH_MAX 0
                { dentry := mountpoint, mnt_root := parent_root, root := root,
                  base_index := base } pflags
              have hB := B hb1
              simp only [Nat.add_zero] at A hB
              obtain ⟨C, D⟩ := ih parent _ _ hb2
              simp only [List.map_append, List.length_append]
              refine ⟨?_, ?_⟩
              · rw [A, C, hB]
                have := range'_append_one base
                  (read_send_dentry_segment env eid pid path_id PATH_DEPTH_MAX 0
                    { dentry := mountpoint, mnt_root := parent_root, root := root,
                      base_index := base } pflags).recs.length
                  (read_send_mount_segments env eid pid path_id root fuel parent
                    (read_send_dentry_segment env eid pid path_id PATH_DEPTH_MAX 0
                      { dentry := mountpoint, mnt_root := parent_root, root := root,
                        base_index := base } pflags).ctx.base_index
                    (read_send_dentry_segment env eid pid path_id PATH_DEPTH_MAX 0
                      { dentry := mountpoint, mnt_root := parent_root, root := root,
                        base_index := base } pflags).pflags).recs.length
                rw [← hB] at this ⊢
                simpa using this
              · rw [D, hB]
                omega

theorem is_seg_not_fd {x : Record} (h : is_seg_rec x = true) :
    is_fd_rec x = false := by
  rcases x with ⟨hdr, pl⟩
  cases pl <;> simp_all [is_seg_rec, is_fd_rec]

theorem is_seg_not_path {x : Record} (h : is_seg_rec x = true) :
    is_path_rec x = false := by
  rcases x with ⟨hdr, pl⟩
  cases pl <;> simp_all [is_seg_rec, is_path_rec]

theorem read_send_path_no_fd (env : PathWalkEnv) (dentry0 mnt0 eid : Nat)
    (pid : Int) (path_id : Int) (for_fd : Bool) :
    ∀ x ∈ (read_send_path env dentry0 mnt0 eid pid path_id for_fd).recs,
      is_fd_rec x = false := by
  intro x hx
  rcases htr : env.task_root with _ | root
  · simp only [read_send_path, htr] at hx
    split at hx
    · simp only [List.mem_singleton] at hx
      subst hx
      rfl
    · simp at hx
  · rcases hmr : env.mnt_root mnt0 with _ | mroot
    · simp only [read_send_path, htr, hmr] at hx
      split at hx
      · simp only [List.mem_singleton] at hx
        subst hx
        rfl
      · simp at hx
    · simp only [read_send_path, htr, hmr, List.append_assoc, List.mem_append] at hx
      rcases hx with hx | hx | hx
      · exact is_seg_not_fd (dentry_loop_all_seg env eid pid path_id
          PATH_DEPTH_MAX 0 _ 0 x hx).1
      · exact is_seg_not_fd (mount_loop_all_seg env eid pid path_id root
          PATH_DEPTH_MAX mnt0 _ _ x hx).1
      · split at hx
        · simp only [List.mem_singleton] at hx
          subst hx
          rfl
        · simp at hx

/-- Structure of the emission of one `read_send_path` call when the ring
buffer accepted every record and every dentry loop broke within its budget:
the PATH_SEGMENT records (all carrying `id = path_id`) followed by exactly
one PATH record whose `segment_count` equals the number of segments, the
segment indices being exactly `0 .. segment_count - 1` in emission order. -/
theorem read_send_path_spec (env : PathWalkEnv) (dentry0 mnt0 eid : Nat)
    (pid : Int) (path_id : Int) (for_fd : Bool) (hring : env.ring_ok = true)
    (hbroke : (read_send_path env dentry0 mnt0 eid pid path_id for_fd).all_broke = true) :
    ∃ segs pfl,
      (read_send_path env dentry0 mnt0 eid pid path_id for_fd).recs
        = segs ++ [path_record eid pid path_id pfl segs.length]
      ∧ (∀ x ∈ segs, is_seg_rec x = true ∧ x.header.id = path_id
          ∧ x.header.eid = eid ∧ x.header.pid = pid)
      ∧ segs.map seg_index = List.range segs.length := by
  rcases htr : env.task_root with _ | root
  · refine ⟨[], PTR_READ_FAILURE, ?_, ?_, ?_⟩
    · simp [read_send_path, htr, hring]
    · simp
    · simp
  · rcases hmr : env.mnt_root mnt0 with _ | mroot
    · refine ⟨[], PTR_READ_FAILURE, ?_, ?_, ?_⟩
      · simp [read_send_path, htr, hmr, hring]
      · simp
      · simp
    · simp only [read_send_path, htr, hmr, Bool.and_eq_true] at hbroke
      obtain ⟨hb1, hb2⟩ := hbroke
      obtain ⟨A, B⟩ := dentry_loop_spec env eid pid path_id hring PATH_DEPTH_MAX 0
        { dentry := dentry0, mnt_root := mroot, root := root, base_index := 0 } 0
      simp only at A B
      have hB := B hb1
      simp only [Nat.zero_add, Nat.add_zero] at A hB
      obtain ⟨C, D⟩ := mount_loop_spec env eid pid path_id root hring PATH_DEPTH_MAX
        mnt0
        (read_send_dentry_segment env eid pid path_id PATH_DEPTH_MAX 0
          { dentry := dentry0, mnt_root := mroot, root := root, base_index := 0 }
          0).ctx.base_index
        (read_send_dentry_segment env eid pid path_id PATH_DEPTH_MAX 0
          { dentry := dentry0, mnt_root := mroot, root := root, base_index := 0 }
          0).pflags hb2
      refine ⟨(read_send_dentry_segment env eid pid path_id PATH_DEPTH_MAX 0
          { dentry := dentry0, mnt_root := mroot, root := root, base_index := 0 }
          0).recs
        ++ (read_send_mount_segments env eid pid path_id root PATH_DEPTH_MAX mnt0
          (read_send_dentry_segment env eid pid path_id PATH_DEPTH_MAX 0
            { dentry := dentry0, mnt_root := mroot, root := root, base_index := 0 }
            0).ctx.base_index
          (read_send_dentry_segment env eid pid path_id PATH_DEPTH_MAX 0
            { dentry := dentry0, mnt_root := mroot, root := root, base_index := 0 }
            0).pflags).recs,
        (read_send_mount_segments env eid pid path_id root PATH_DEPTH_MAX mnt0
          (read_send_dentry_segment env eid pid path_id PATH_DEPTH_MAX 0
            { dentry := dentry0, mnt_root := mroot, root := root, base_index := 0 }
            0).ctx.base_index
          (read_send_dentry_segment env eid pid path_id PATH_DEPTH_MAX 0
            { dentry := dentry0, mnt_root := mroot, root := root, base_index := 0 }
            0).pflags).pflags, ?_, ?_, ?_⟩
      · simp only [read_send_path, htr, hmr, hring, if_true, ite_true,
          List.append_assoc, List.length_append]
        have hcnt : (read_send_mount_segments env eid pid path_id root PATH_DEPTH_MAX
            mnt0
            (read_send_dentry_segment env eid pid path_id PATH_DEPTH_MAX 0
              { dentry := dentry0, mnt_root := mroot, root := root, base_index := 0 }
              0).ctx.base_index
            (read_send_dentry_segment env eid pid path_id PATH_DEPTH_MAX 0
              { dentry := dentry0, mnt_root := mroot, root := root, base_index := 0 }
              0).pflags).base_index
            = (read_send_dentry_segment env eid pid path_id PATH_DEPTH_MAX 0
                { dentry := dentry0, mnt_root := mroot, root := root, base_index := 0 }
                0).recs.length
              + (read_send_mount_segments env eid pid path_id root PATH_DEPTH_MAX mnt0
                (read_send_dentry_segment env eid pid path_id PATH_DEPTH_MAX 0
                  { dentry := dentry0, mnt_root := mroot, root := root, base_index := 0 }
                  0).ctx.base_index
                (read_send_dentry_segment env eid pid path_id PATH_DEPTH_MAX 0
                  { dentry := dentry0, mnt_root := mroot, root := root, base_index := 0 }
                  0).pflags).recs.length := by
          rw [D, hB]
        rw [hcnt]
      · intro x hx
        simp only [List.mem_append] at hx
        rcases hx with hx | hx
        · exact dentry_loop_all_seg env eid pid path_id PATH_DEPTH_MAX 0 _ 0 x hx
        · exact mount_loop_all_seg env eid pid path_id root PATH_DEPTH_MAX mnt0 _ _ x hx
      · rw [List.map_append, A, C, hB, List.length_append, List.range_eq_range']
        simpa using range'_append_one 0 _ _

/-! ## _read_fd lemmas -/

/-- C10: provided the per-CPU staging lookup succeeds (and the ring buffer
accepts the write), every `_read_fd` invocation increments the parent event's
`fd_count` by exactly one and emits exactly one FD record carrying the fd
number — also on the file-pointer read-failure path, where the emitted
record carries `PTR_READ_FAILURE` (bit 4) and `path_id = -1`; the `fd_count`
reported by SYSEXIT therefore counts every FD record, the failed ones
included. -/
theorem read_fd_count_and_record (env : PathWalkEnv) (fr : FileReads)
    (fd_num : Nat) (cloexec : Bool) (ev : ExecEventFd)
    (hring : env.ring_ok = true) :
    ((_read_fd env fr true true fd_num cloexec ev).1).fd_count = ev.fd_count + 1
    ∧ (((_read_fd env fr true true fd_num cloexec ev).2.1).filter is_fd_rec).length = 1
    ∧ (∀ r ∈ ((_read_fd env fr true true fd_num cloexec ev).2.1).filter is_fd_rec,
        fd_num_of r = fd_num)
    ∧ (fr.file_ok = false →
        ((_read_fd env fr true true fd_num cloexec ev).2.1)
          = [{ header := { pid := ev.pid,
                           flags := fr.stale_hdr_flags ||| PTR_READ_FAILURE,
                           eid := ev.eid, id := fr.stale_hdr_id }
               payload := .fd fd_num fr.stale_oflags fr.stale_mnt_id (-1)
                 fr.stale_ino fr.stale_pos fr.stale_fstype }]
        ∧ Nat.testBit (fr.stale_hdr_flags ||| PTR_READ_FAILURE) 4 = true) := by
  have hptr : Nat.testBit (fr.stale_hdr_flags ||| PTR_READ_FAILURE) 4 = true := by
    rw [Nat.testBit_or]
    have : Nat.testBit PTR_READ_FAILURE 4 = true := by decide
    simp [this]
  cases hfile : fr.file_ok with
  | false =>
    refine ⟨?_, ?_, ?_, ?_⟩ <;>
      simp [_read_fd, hfile, hring, is_fd_rec, fd_num_of, hptr]
  | true =>
    cases hfpath : fr.fpath_ok with
    | false =>
      refine ⟨?_, ?_, ?_, ?_⟩ <;>
        simp [_read_fd, hfile, hfpath, hring, is_fd_rec, fd_num_of]
    | true =>
      have hnofd := read_send_path_no_fd env fr.path_dentry fr.path_mnt ev.eid
        ev.pid (ev.path_count : Int) true
      have hfilter : (read_send_path env fr.path_dentry fr.path_mnt ev.eid ev.pid
          (ev.path_count : Int) true).recs.filter is_fd_rec = [] := by
        rw [List.filter_eq_nil_iff]
        intro a ha
        simp [hnofd a ha]
      refine ⟨?_, ?_, ?_, ?_⟩
      · simp only [_read_fd, hfile, hfpath, hring, Bool.not_true,
          Bool.false_eq_true, if_false, ite_false, if_true, ite_true]
        split <;> rfl
      · simp [_read_fd, hfile, hfpath, hring, List.filter_append, hfilter,
          is_fd_rec]
      · intro r hr
        simp only [_read_fd, hfile, hfpath, hring, Bool.not_true,
          Bool.false_eq_true, if_false, ite_false, if_true, ite_true,
          List.filter_append, hfilter, List.nil_append] at hr
        simp only [List.mem_filter] at hr
        rcases hr with ⟨hr, _⟩
        simp only [List.mem_singleton] at hr
        subst hr
        rfl
      · intro hcon
        exact absurd hcon (by decide)

/-- Under per-fd read success (file pointer and `f_path` both readable) and
an `f_flags` value free of the `O_CLOEXEC` bit (which the kernel never stores
there), the single FD record built by `_read_fd` carries the fd number and
has `O_CLOEXEC` in its flags exactly when the close-on-exec argument is
true. -/
theorem read_fd_proj (env : PathWalkEnv) (fr : FileReads) (fd_num : Nat)
    (cloexec : Bool) (ev : ExecEventFd) (hring : env.ring_ok = true)
    (hfile : fr.file_ok = true) (hfpath : fr.fpath_ok = true)
    (hbit : fr.fflags.testBit 19 = false) :
    (((_read_fd env fr true true fd_num cloexec ev).2.1).filter is_fd_rec).map
        (fun r => (fd_num_of r, (fd_oflags r).testBit 19))
      = [(fd_num, cloexec)] := by
  have hnofd := read_send_path_no_fd env fr.path_dentry fr.path_mnt ev.eid
    ev.pid (ev.path_count : Int) true
  have hfilter : (read_send_path env fr.path_dentry fr.path_mnt ev.eid ev.pid
      (ev.path_count : Int) true).recs.filter is_fd_rec = [] := by
    rw [List.filter_eq_nil_iff]
    intro a ha
    simp [hnofd a ha]
  simp only [_read_fd, hfile, hfpath, hring, Bool.not_true, Bool.false_eq_true,
    if_false, ite_false, if_true, ite_true, List.filter_append, hfilter,
    List.nil_append]
  have h19 : O_CLOEXEC = 2 ^ 19 := by decide
  cases cloexec with
  | true =>
    cases hok : fr.fflags_ok <;>
      simp [is_fd_rec, fd_num_of, fd_oflags, Nat.testBit_or, h19] <;>
        exact Or.inr (by decide)
  | false =>
    cases hok : fr.fflags_ok
    · simp [is_fd_rec, fd_num_of, fd_oflags, hbit, FLAGS_READ_FAILURE]
      decide
    · simp [is_fd_rec, fd_num_of, fd_oflags, hbit, FLAGS_READ_FAILURE]

theorem and_one_shiftLeft_testBit (cw k : Nat) :
    (decide ((cw &&& (1 <<< k)) ≠ 0)) = cw.testBit k := by
  rw [Nat.one_shiftLeft, Nat.and_two_pow]
  cases hb : cw.testBit k <;>
    simp [Nat.pos_pow_of_pos, Nat.pos_iff_ne_zero]

/-- The word scan seeded at `find_next_bit fdset o` emits, per set bit `b`
of the word in ascending order, exactly one FD record with fd number
`64 * word_index + b` whose flags carry `O_CLOEXEC` exactly when bit `b` of
the close-on-exec word is set (given the per-fd reads succeed and `f_flags`
is `O_CLOEXEC`-free). -/
theorem read_fdset_word_sets (env : FdScanEnv) (fdset cw wi : Nat)
    (hw : fdset < 2 ^ 64) (hcpu : env.cpu_ok = true) (hcache : env.cache_ok = true)
    (hring : env.kern.ring_ok = true)
    (hfd : ∀ n, (env.files n).file_ok = true ∧ (env.files n).fpath_ok = true
      ∧ (env.files n).fflags.testBit 19 = false) :
    ∀ fuel o ev, 64 - o ≤ fuel →
      (((read_fdset_word env fdset cw wi fuel (find_next_bit fdset o) ev).2).filter
          is_fd_rec).map (fun r => (fd_num_of r, (fd_oflags r).testBit 19))
        = ((List.range' o (64 - o)).filter (fun b => fdset.testBit b)).map
            (fun b => (64 * wi + b, cw.testBit b)) := by
  intro fuel
  induction fuel with
  | zero =>
    intro o ev hle
    have hzero : 64 - o = 0 := by omega
    simp [read_fdset_word, hzero]
  | succ fuel ih =>
    intro o ev hle
    rcases find_next_bit_spec fdset o hw with ⟨heq, hnone⟩ | ⟨h2, h3, h1, hmin⟩
    · rw [heq]
      have hempty : (List.range' o (64 - o)).filter (fun b => fdset.testBit b) = [] := by
        rw [List.filter_eq_nil_iff]
        intro b hb
        rw [List.mem_range'_1] at hb
        simp [hnone b hb.1 (by omega)]
      rw [hempty]
      simp [read_fdset_word, BITS_PER_LONG]
    · have hne : find_next_bit fdset o ≠ BITS_PER_LONG := by
        unfold BITS_PER_LONG
        omega
      rw [read_fdset_word, if_neg hne]
      simp only []
      have hproj := read_fd_proj env.kern
        (env.files (find_next_bit fdset o + BITS_PER_LONG * wi))
        (find_next_bit fdset o + BITS_PER_LONG * wi)
        (decide ((cw &&& (1 <<< find_next_bit fdset o)) ≠ 0)) ev hring
        (hfd _).1 (hfd _).2.1 (hfd _).2.2
      have hrest := ih (find_next_bit fdset o + 1)
        ((_read_fd env.kern (env.files (find_next_bit fdset o + BITS_PER_LONG * wi))
          env.cpu_ok env.cache_ok (find_next_bit fdset o + BITS_PER_LONG * wi)
          (decide ((cw &&& (1 <<< find_next_bit fdset o)) ≠ 0)) ev).1)
        (by omega)
      rw [List.filter_append, List.map_append]
      rw [hcpu, hcache] at *
      rw [hproj, hrest]
      have hsplit : List.range' o (64 - o)
          = List.range' o (find_next_bit fdset o - o)
            ++ List.range' (find_next_bit fdset o) (64 - find_next_bit fdset o) := by
        have h := range'_append_one o (find_next_bit fdset o - o)
          (64 - find_next_bit fdset o)
        rw [show o + (find_next_bit fdset o - o) = find_next_bit fdset o from by omega,
          show find_next_bit fdset o - o + (64 - find_next_bit fdset o) = 64 - o from by omega]
          at h
        exact h.symm
      rw [hsplit, List.filter_append]
      have hlow : (List.range' o (find_next_bit fdset o - o)).filter
          (fun b => fdset.testBit b) = [] := by
        rw [List.filter_eq_nil_iff]
        intro b hb
        rw [List.mem_range'_1] at hb
        simp [hmin b hb.1 (by omega)]
      rw [hlow, List.nil_append]
      have hcons : List.range' (find_next_bit fdset o) (64 - find_next_bit fdset o)
          = find_next_bit fdset o :: List.range' (find_next_bit fdset o + 1)
              (64 - (find_next_bit fdset o + 1)) := by
        rw [show 64 - find_next_bit fdset o = (64 - (find_next_bit fdset o + 1)) + 1
          from by omega]
        rw [List.range'_succ]
      rw [hcons]
      rw [List.filter_cons_of_pos (by simpa using h1)]
      rw [List.map_cons]
      rw [and_one_shiftLeft_testBit]
      have harith : find_next_bit fdset o + BITS_PER_LONG * wi
          = 64 * wi + find_next_bit fdset o := by
        unfold BITS_PER_LONG
        omega
      rw [harith]
      rw [List.singleton_append]

/-! ## Claim theorems for C2, C3, C4 and the counterexamples -/

/-- C2 (amended): for every successfully read 64-bit word of `open_fds`,
exactly one FD record is emitted per set bit `b`, carrying
`fd_num = 64 * k + b`, and none for clear bits; and — provided the per-fd
file-struct reads succeed and `f_flags` does not itself contain the
`O_CLOEXEC` bit (the kernel never stores it there) — the record's flags
contain `O_CLOEXEC` (bit 19) iff bit `b` of the close-on-exec word was
set. -/
theorem fd_word_records (env : FdScanEnv) (word cw wi : Nat) (ev : ExecEventFd)
    (hw : word < 2 ^ 64) (hcpu : env.cpu_ok = true) (hcache : env.cache_ok = true)
    (hring : env.kern.ring_ok = true)
    (hfd : ∀ n, (env.files n).file_ok = true ∧ (env.files n).fpath_ok = true
      ∧ (env.files n).fflags.testBit 19 = false) :
    (((read_fds_impl env (some word) (some cw) wi ev).2.1).filter is_fd_rec).map
        (fun r => (fd_num_of r, (fd_oflags r).testBit 19))
      = ((List.range 64).filter (fun b => word.testBit b)).map
          (fun b => (64 * wi + b, cw.testBit b)) := by
  by_cases hz : word = 0
  · subst hz
    have hempty : (List.range 64).filter (fun b => Nat.testBit 0 b) = [] := by
      rw [List.filter_eq_nil_iff]
      intro b _
      simp [Nat.zero_testBit]
    rw [hempty]
    simp [read_fds_impl]
  · have h := read_fdset_word_sets env word cw wi hw hcpu hcache hring hfd
      BITS_PER_LONG 0 ev (by norm_num [BITS_PER_LONG])
    simp only [read_fds_impl, hz, if_neg hz, ite_false]
    rw [h, List.range_eq_range']

/-- C3 (amended): for an FD record whose file-struct reads succeeded
(`path_id ≥ 0`), and provided the ring buffer accepts every record and no
dentry loop exhausts its budget, the `_read_fd` emission consists of the
PATH_SEGMENT records carrying `id = path_id`, followed by exactly one PATH
record with that id whose `segment_count` equals the number of those
segments, followed by the FD record referencing `path_id`; records on the
file-pointer-failure path instead carry `path_id = -1` with no PATH
group. -/
theorem read_fd_success_recs (env : PathWalkEnv) (fr : FileReads) (fd_num : Nat)
    (cloexec : Bool) (ev : ExecEventFd) (hring : env.ring_ok = true)
    (hfile : fr.file_ok = true) (hfpath : fr.fpath_ok = true) :
    ∃ fdrec, (_read_fd env fr true true fd_num cloexec ev).2.1
        = (read_send_path env fr.path_dentry fr.path_mnt ev.eid ev.pid
            (ev.path_count : Int) true).recs ++ [fdrec]
      ∧ is_fd_rec fdrec = true ∧ fd_path_id fdrec = (ev.path_count : Int) := by
  simp only [_read_fd, hfile, hfpath, hring, Bool.not_true, Bool.false_eq_true,
    if_false, ite_false, if_true, ite_true]
  exact ⟨_, rfl, rfl, rfl⟩

/-- C3 (amended): for an FD record whose file-struct reads succeeded
(`path_id ≥ 0`), and provided the ring buffer accepts every record and no
dentry loop exhausts its budget, the `_read_fd` emission consists of the
PATH_SEGMENT records carrying `id = path_id`, followed by exactly one PATH
record with that id whose `segment_count` equals the number of those
segments, followed by the FD record referencing `path_id`; records on the
file-pointer-failure path instead carry `path_id = -1` with no PATH
group. -/
theorem fd_path_group (env : PathWalkEnv) (fr : FileReads) (fd_num : Nat)
    (cloexec : Bool) (ev : ExecEventFd) (hring : env.ring_ok = true)
    (hfile : fr.file_ok = true) (hfpath : fr.fpath_ok = true)
    (hbroke : (read_send_path env fr.path_dentry fr.path_mnt ev.eid ev.pid
      (ev.path_count : Int) true).all_broke = true) :
    ∃ segs pfl fdrec,
      (_read_fd env fr true true fd_num cloexec ev).2.1
        = segs ++ [path_record ev.eid ev.pid (ev.path_count : Int) pfl segs.length]
          ++ [fdrec]
      ∧ is_fd_rec fdrec = true
      ∧ fd_path_id fdrec = (ev.path_count : Int)
      ∧ (∀ x ∈ segs, is_seg_rec x = true ∧ x.header.id = (ev.path_count : Int))
      ∧ (∀ x ∈ segs, is_path_rec x = false ∧ is_fd_rec x = false) := by
  obtain ⟨segs, pfl, hrecs, hmem, hidx⟩ := read_send_path_spec env fr.path_dentry
    fr.path_mnt ev.eid ev.pid (ev.path_count : Int) true hring hbroke
  obtain ⟨fdrec, he, hf1, hf2⟩ := read_fd_success_recs env fr fd_num cloexec ev
    hring hfile hfpath
  refine ⟨segs, pfl, fdrec, ?_, hf1, hf2, ?_, ?_⟩
  · rw [he, hrecs]
  · intro x hx
    exact ⟨(hmem x hx).1, (hmem x hx).2.1⟩
  · intro x hx
    exact ⟨is_seg_not_path (hmem x hx).1, is_seg_not_fd (hmem x hx).1⟩

/-- C4: for every resolved path, provided the ring buffer accepts every
record and no dentry loop exhausts its budget, the PATH_SEGMENT records are
emitted leaf-first with dense indices: the emission order carries indices
`0, 1, 2, ...` without gaps, also across mount crossings, and the indices
are exactly `0 .. segment_count - 1` for the `segment_count` of the
terminating PATH record. -/
theorem path_segment_indices (env : PathWalkEnv) (dentry0 mnt0 eid : Nat)
    (pid : Int) (path_id : Int) (for_fd : Bool) (hring : env.ring_ok = true)
    (hbroke : (read_send_path env dentry0 mnt0 eid pid path_id for_fd).all_broke
      = true) :
    ∃ segs pfl,
      (read_send_path env dentry0 mnt0 eid pid path_id for_fd).recs
        = segs ++ [path_record eid pid path_id pfl segs.length]
      ∧ (∀ x ∈ segs, is_seg_rec x = true)
      ∧ segs.map seg_index = List.range segs.length := by
  obtain ⟨segs, pfl, hrecs, hmem, hidx⟩ := read_send_path_spec env dentry0 mnt0
    eid pid path_id for_fd hring hbroke
  exact ⟨segs, pfl, hrecs, fun x hx => (hmem x hx).1, hidx⟩

/-! ## Concrete environments for counterexamples and witnesses -/

/-- A kernel environment in which every read fails; the failure-path
counterexamples never reach it. -/
def dummy_kern_env : PathWalkEnv :=
  { dparent := fun _ => none
    dname := fun _ => .ptrFail
    mnt_mountpoint := fun _ => none
    mnt_parent := fun _ => none
    mnt_root := fun _ => none
    mnt_id := fun _ => none
    fstype := fun _ => none
    task_root := none
    ring_ok := true }

/-- A file whose `fd_array` pointer read fails while the per-CPU staging
slot still holds `O_CLOEXEC` in its `flags` field from a previous record. -/
def stale_cloexec_file : FileReads :=
  { file_ok := false, pos_ok := true, pos := 0, ino_ok := true, ino := 0
    fpath_ok := true, path_dentry := 0, path_mnt := 0, fflags_ok := true
    fflags := 0, stale_hdr_flags := 0, stale_hdr_id := 0
    stale_oflags := O_CLOEXEC, stale_mnt_id := 0, stale_ino := 0
    stale_pos := 0, stale_fstype := "" }

def stale_scan_env : FdScanEnv :=
  { kern := dummy_kern_env, files := fun _ => stale_cloexec_file
    cpu_ok := true, cache_ok := true }

def ev0 : ExecEventFd :=
  { pid := 1, eid := 0, hdr_flags := 0, fd_count := 0, path_count := 0 }

/-- C2 counterexample: with `open_fds` word 1 (only fd 0 open), a
close-on-exec word 0 (bit 0 clear), a failing file-pointer read, and a
staging slot whose previous contents held `O_CLOEXEC`, the emitted FD record
for fd 0 carries `O_CLOEXEC` although fd 0's close-on-exec bit is clear —
refuting the claim's iff as stated. -/
theorem fd_cloexec_stale_counterexample :
    (((read_fds_impl stale_scan_env (some 1) (some 0) 0 ev0).2.1).filter
        is_fd_rec).map (fun r => (fd_num_of r, (fd_oflags r).testBit 19))
      = [(0, true)]
    ∧ Nat.testBit 0 0 = false := by
  decide

/-- A well-behaved kernel environment: `/tmp/x` reachable in two dentry
steps from the mount root, a single self-parented mount. -/
def ok_kern_env : PathWalkEnv :=
  { dparent := fun d => if d = 1 then some 2 else some 10
    dname := fun d => if d = 1 then .ok "x" else .ok "tmp"
    mnt_mountpoint := fun _ => some 10
    mnt_parent := fun m => some m
    mnt_root := fun _ => some 10
    mnt_id := fun _ => some 7
    fstype := fun _ => some "ext4"
    task_root := some 10
    ring_ok := true }

def ok_file : FileReads :=
  { file_ok := true, pos_ok := true, pos := 0, ino_ok := true, ino := 42
    fpath_ok := true, path_dentry := 1, path_mnt := 0, fflags_ok := true
    fflags := 0, stale_hdr_flags := 0, stale_hdr_id := 0
    stale_oflags := 0, stale_mnt_id := 0, stale_ino := 0
    stale_pos := 0, stale_fstype := "" }

def ok_scan_env : FdScanEnv :=
  { kern := ok_kern_env, files := fun _ => ok_file
    cpu_ok := true, cache_ok := true }

/-- C3 counterexample: on the file-pointer read-failure path `_read_fd`
emits an FD record with `path_id = -1` and no PATH record with id `-1` ever
follows, refuting "for every FD record emitted, exactly one PATH with
`id = fd.path_id` is emitted" as stated. -/
theorem fd_without_path_counterexample :
    (((_read_fd dummy_kern_env stale_cloexec_file true true 5 false ev0).2.1).filter
        is_fd_rec).map fd_path_id = [(-1 : Int)]
    ∧ ((_read_fd dummy_kern_env stale_cloexec_file true true 5 false ev0).2.1).filter
        (fun r => is_path_rec r && (r.header.id == (-1 : Int))) = [] := by
  decide

/-! ## Witnesses -/

def strsA : StringsEnv :=
  { ptrs := fun i => if i < 2 then .str (.bytes 3 "ab") else .nullp
    stale_flags := fun _ => 0, cpu_ok := true, cache_ok := true, ring_ok := true }

def strsE : StringsEnv :=
  { ptrs := fun i => if i = 0 then .str (.bytes 2 "E") else .nullp
    stale_flags := fun _ => 0, cpu_ok := true, cache_ok := true, ring_ok := true }

theorem string_record_ids_witness :
    ((exec_read_argv_envp strsA strsE 1 0).2.1).map (fun r => r.header.id)
      = (List.range (exec_read_argv_envp strsA strsE 1 0).1.count0).map
          (fun n => (n : Int))
    ∧ ((exec_read_argv_envp strsA strsE 1 0).2.2).map (fun r => r.header.id)
      = (List.range' (exec_read_argv_envp strsA strsE 1 0).1.count0
          (exec_read_argv_envp strsA strsE 1 0).1.count1).map (fun n => (n : Int)) :=
  string_record_ids strsA strsE 1 0 rfl rfl

def task0 : TaskPidNs :=
  { nsproxy_ok := true, thread_pid_ok := true, level_ok := true, upid_ok := true
    pid_in_ns := 1, ns_inum_ok := true, ns_inum := 1 }

def cfg0 : TracexecConfig :=
  { follow_fork := false, tracee_pid := 1, tracee_pidns_inum := 1 }

def s0 : TraceState := { tgid_closure := [], tracee_tgid := 0 }

def fc0 : ForkCtx :=
  { child_pid_ok := true, child_pid := 7, child_tgid_ok := true, child_tgid := 7
    parent_tgid_ok := true, parent_tgid := 3, task := task0, cpu_ok := true
    cache_ok := true, stale_eid := 0, stale_id := 0, ring_ok := true }

theorem trace_fork_witness :
    fc0.child_pid ∈ (trace_fork cfg0 fc0 s0).1.tgid_closure ∧
    ∀ i r, (trace_fork cfg0 fc0 s0).2.1.get? i = some (Op.ringWrite r) →
      ∃ j, j < i ∧ (trace_fork cfg0 fc0 s0).2.1.get? j
        = some (Op.addClosure fc0.child_pid) :=
  trace_fork_child_added_before_fork_write cfg0 fc0 s0 rfl rfl rfl rfl rfl

def r0 : Record :=
  { header := { pid := 3, flags := 0, eid := 0, id := 0 }
    payload := .sysexit 0 0 0 0 0 }

theorem exec_slot_lifecycle_witness :
    ((([3] : List Int).contains 3 || false) = true →
      exec_entry_slot_insert false ⟨[3], 0⟩ 3 = (⟨[3], 1⟩, false))
    ∧ (([3] : List Int).contains 3 = true →
      (tp_sys_exit_exec ⟨[3], 0⟩ 3 true true r0).1
          = { slots := ([3] : List Int).erase 3, drops := 0 }
      ∧ (tp_sys_exit_exec ⟨[3], 0⟩ 3 true true r0).2
          = if true && true then [r0] else []) :=
  exec_slot_lifecycle false ⟨[3], 0⟩ ⟨[3], 0⟩ 3 true true r0

def exit_ctx0 : ExitCtx :=
  { pid := 5, tgid := 5, cpu_ok := true, cache_ok := true, stale_eid := 0
    stale_id := 0, exit_code_ok := true, exit_code := 256, ring_ok := true }

def s9 : TraceState := { tgid_closure := [5], tracee_tgid := 5 }

def exit_rec0 : Record :=
  { header := { pid := 5, flags := 0, eid := 0, id := 0 }
    payload := .exit 1 0 true }

theorem handle_exit_spec_witness :
    exit_ctx0.pid = exit_ctx0.tgid
    ∧ (handle_exit cfg0 s9 exit_ctx0).1.tgid_closure
        = s9.tgid_closure.erase exit_ctx0.tgid
    ∧ exit_rec0.payload = .exit (sar exit_ctx0.exit_code 8)
        (low_byte exit_ctx0.exit_code) (exit_ctx0.tgid == s9.tracee_tgid)
    ∧ exit_ctx0.exit_code = 256 * sar exit_ctx0.exit_code 8
        + (low_byte exit_ctx0.exit_code : Int)
    ∧ low_byte exit_ctx0.exit_code < 256 :=
  handle_exit_spec cfg0 s9 exit_ctx0 exit_rec0 (by decide)

theorem fd_word_records_witness :
    (((read_fds_impl ok_scan_env (some 5) (some 4) 0 ev0).2.1).filter
        is_fd_rec).map (fun r => (fd_num_of r, (fd_oflags r).testBit 19))
      = ((List.range 64).filter (fun b => Nat.testBit 5 b)).map
          (fun b => (64 * 0 + b, Nat.testBit 4 b)) :=
  fd_word_records ok_scan_env 5 4 0 ev0 (by norm_num) rfl rfl rfl
    (fun _ => ⟨rfl, rfl, Nat.zero_testBit 19⟩)

theorem fd_path_group_witness :
    ∃ segs pfl fdrec,
      (_read_fd ok_kern_env ok_file true true 3 true ev0).2.1
        = segs ++ [path_record ev0.eid ev0.pid (ev0.path_count : Int) pfl segs.length]
          ++ [fdrec]
      ∧ is_fd_rec fdrec = true
      ∧ fd_path_id fdrec = (ev0.path_count : Int)
      ∧ (∀ x ∈ segs, is_seg_rec x = true ∧ x.header.id = (ev0.path_count : Int))
      ∧ (∀ x ∈ segs, is_path_rec x = false ∧ is_fd_rec x = false) :=
  fd_path_group ok_kern_env ok_file 3 true ev0 rfl rfl rfl (by decide)

theorem path_segment_indices_witness :
    ∃ segs pfl,
      (read_send_path ok_kern_env 1 0 0 1 (-100) false).recs
        = segs ++ [path_record 0 1 (-100) pfl segs.length]
      ∧ (∀ x ∈ segs, is_seg_rec x = true)
      ∧ segs.map seg_index = List.range segs.length :=
  path_segment_indices ok_kern_env 1 0 0 1 (-100) false rfl (by decide)

theorem read_fd_count_and_record_witness :
    ((_read_fd dummy_kern_env stale_cloexec_file true true 3 false ev0).1).fd_count
        = ev0.fd_count + 1
    ∧ (((_read_fd dummy_kern_env stale_cloexec_file true true 3 false ev0).2.1).filter
        is_fd_rec).length = 1
    ∧ (∀ r ∈ ((_read_fd dummy_kern_env stale_cloexec_file true true 3 false
        ev0).2.1).filter is_fd_rec, fd_num_of r = 3)
    ∧ (stale_cloexec_file.file_ok = false →
        ((_read_fd dummy_kern_env stale_cloexec_file true true 3 false ev0).2.1)
          = [{ header := { pid := ev0.pid,
                           flags := stale_cloexec_file.stale_hdr_flags ||| PTR_READ_FAILURE,
                           eid := ev0.eid, id := stale_cloexec_file.stale_hdr_id }
               payload := .fd 3 stale_cloexec_file.stale_oflags
                 stale_cloexec_file.stale_mnt_id (-1) stale_cloexec_file.stale_ino
                 stale_cloexec_file.stale_pos stale_cloexec_file.stale_fstype }]
        ∧ Nat.testBit (stale_cloexec_file.stale_hdr_flags ||| PTR_READ_FAILURE) 4
            = true) :=
  read_fd_count_and_record dummy_kern_env stale_cloexec_file 3 false ev0 rfl

end Tracexec
